import Mathlib

/-!
Module squish.cpp: flag normalisation, dispatch and image tiling

A shallow embedding of `libs/texcmp/squish/squish.cpp`.

* A C++ `int` is a Lean `Int`.  Signed overflow is undefined behaviour in C++, so the
  embedding describes the executions in which no intermediate `int` leaves its range.
  `&` and `|` on `int` are `Int.land` and `Int.lor` (two's complement).
  The one function whose result is compared with buffer sizes, `GetStorageRequirements`,
  also has a second embedding, `GetStorageRequirements32`, in which every `int` operation
  wraps around at 32 bits; the two agree when nothing overflows (`storageFits32`).
* Pointers into a buffer are byte offsets (`Int`) from the start of that buffer.
* The colour fits, the alpha codecs and `ColourSet` live in other translation units.
  A call to one of them is recorded as an event carrying the arguments of the call;
  `ColourSet::GetCount` is a parameter of the dispatchers.
-/

namespace squish

/-! ## Definitions -/

/-- Bitwise and of two `int`s. -/
instance : AndOp Int := ⟨Int.land⟩

/-- Bitwise or of two `int`s. -/
instance : OrOp Int := ⟨Int.lor⟩

/-- Modelled from the spec: the flag constants of `squish.h`, which is not part of the
sources at hand; the values are the distinct single bits of that header. -/
def kDxt1 : Int := 1

/-- Modelled from the spec: flag constant of `squish.h` (see `kDxt1`). -/
def kDxt3 : Int := 2

/-- Modelled from the spec: flag constant of `squish.h` (see `kDxt1`). -/
def kDxt5 : Int := 4

/-- Modelled from the spec: flag constant of `squish.h` (see `kDxt1`). -/
def kColourClusterFit : Int := 8

/-- Modelled from the spec: flag constant of `squish.h` (see `kDxt1`). -/
def kColourRangeFit : Int := 16

/-- Modelled from the spec: flag constant of `squish.h` (see `kDxt1`). -/
def kColourMetricPerceptual : Int := 32

/-- Modelled from the spec: flag constant of `squish.h` (see `kDxt1`). -/
def kColourMetricUniform : Int := 64

/-- Modelled from the spec: flag constant of `squish.h` (see `kDxt1`). -/
def kWeightColourByAlpha : Int := 128

/-- Modelled from the spec: flag constant of `squish.h` (see `kDxt1`). -/
def kColourIterativeClusterFit : Int := 256

/-- Source function `static int FixFlags( int flags )`. -/
def FixFlags (flags : Int) : Int :=
  -- grab the flag bits
  let method := flags &&& (kDxt1 ||| kDxt3 ||| kDxt5)
  let fit := flags &&& (kColourIterativeClusterFit ||| kColourClusterFit ||| kColourRangeFit)
  let metric := flags &&& (kColourMetricPerceptual ||| kColourMetricUniform)
  let extra := flags &&& kWeightColourByAlpha
  -- set defaults
  let method := if method ≠ kDxt3 ∧ method ≠ kDxt5 then kDxt1 else method
  let fit :=
    if fit ≠ kColourRangeFit ∧ fit ≠ kColourIterativeClusterFit then kColourClusterFit else fit
  let metric := if metric ≠ kColourMetricUniform then kColourMetricPerceptual else metric
  -- done
  method ||| fit ||| metric ||| extra

/-- Source function `int GetStorageRequirements( int width, int height, int flags )`, computed
on the integers; `/` on `int` truncates towards zero.  This is the value that the code returns
whenever none of its `int` operations overflows (`storageFits32`); `GetStorageRequirements32`
is the value it returns with an `int` of 32 bits, overflow included. -/
def GetStorageRequirements (width height flags : Int) : Int :=
  -- fix any bad flags
  let flags := FixFlags flags
  -- compute the storage requirements
  let blockcount := ((width + 3).tdiv 4) * ((height + 3).tdiv 4)
  let blocksize : Int := if (flags &&& kDxt1) ≠ 0 then 8 else 16
  blockcount * blocksize

/-- The value that a 32-bit two's complement `int` holds after an operation whose exact
result is `n`: `n` reduced modulo `2^32` into `[-2^31, 2^31)`. -/
def wrap32 (n : Int) : Int := (n + 2 ^ 31) % 2 ^ 32 - 2 ^ 31

/-- The value that `GetStorageRequirements` returns on a machine whose `int` has 32 bits and
wraps around: the source function with the result of every addition and multiplication
reduced by `wrap32`. -/
def GetStorageRequirements32 (width height flags : Int) : Int :=
  -- fix any bad flags
  let flags := FixFlags flags
  -- compute the storage requirements
  let blockcount := wrap32 ((wrap32 (width + 3)).tdiv 4 * (wrap32 (height + 3)).tdiv 4)
  let blocksize : Int := if (flags &&& kDxt1) ≠ 0 then 8 else 16
  wrap32 (blockcount * blocksize)

/-- No `int` operation of `GetStorageRequirements` overflows 32 bits: the exact values of
`width + 3`, of `height + 3` and of the result are below `2^31`. -/
def storageFits32 (width height flags : Int) : Prop :=
  width + 3 < 2 ^ 31 ∧ height + 3 < 2 ^ 31 ∧ GetStorageRequirements width height flags < 2 ^ 31

/-! ### Vocabulary of the specification -/

/-- The method bits of a flags word. -/
def methodBits (flags : Int) : Int := flags &&& (kDxt1 ||| kDxt3 ||| kDxt5)

/-- The fit bits of a flags word. -/
def fitBits (flags : Int) : Int :=
  flags &&& (kColourRangeFit ||| kColourClusterFit ||| kColourIterativeClusterFit)

/-- The metric bits of a flags word. -/
def metricBits (flags : Int) : Int := flags &&& (kColourMetricPerceptual ||| kColourMetricUniform)

/-- How many of the given single-bit flags are set in `flags`. -/
def countSet (flags : Int) (bits : List Int) : Nat :=
  (bits.filter (fun b => decide (flags &&& b ≠ 0))).length

/-- Every flag bit that `squish.h` defines. -/
def knownBits : Int :=
  kDxt1 ||| kDxt3 ||| kDxt5 ||| kColourClusterFit ||| kColourRangeFit |||
    kColourIterativeClusterFit ||| kColourMetricPerceptual ||| kColourMetricUniform |||
    kWeightColourByAlpha

/-- A canonical configuration: exactly one method bit, exactly one fit bit, exactly one metric
bit, and no bit that `squish.h` does not define. -/
def IsCanonical (flags : Int) : Prop :=
  countSet flags [kDxt1, kDxt3, kDxt5] = 1 ∧
  countSet flags [kColourRangeFit, kColourClusterFit, kColourIterativeClusterFit] = 1 ∧
  countSet flags [kColourMetricPerceptual, kColourMetricUniform] = 1 ∧
  flags &&& knownBits = flags

instance (flags : Int) : Decidable (IsCanonical flags) := by
  unfold IsCanonical
  infer_instance

/-! ### The block dispatchers -/

/-- The colour fit classes, each defined in a translation unit of its own. -/
inductive ColourFit
  | SingleColourFit
  | SingleColourFitFast
  | TwoColourFitFast
  | RangeFit
  | ClusterFit
  deriving DecidableEq, Repr

/-- A `ColourSet` object, represented by the arguments of the constructor that built it:
`ColourSet( rgba, mask, flags )` or `ColourSet( rgba, flags )`.  `T` is the type of the tile
buffer `rgba`. -/
inductive ColourSet (T : Type)
  | masked (rgba : T) (mask : Int) (flags : Int)
  | full (rgba : T) (flags : Int)
  deriving DecidableEq, Repr

/-- A call that a compressor makes into another translation unit, with its arguments.
`Compress fit colours flags block` stands for `Fit fit( &colours, flags ); fit.Compress( block )`
and `Compress3` for the same with `fit.Compress3( block )`. -/
inductive Call (T : Type)
  | Compress (fit : ColourFit) (colours : ColourSet T) (flags : Int) (block : Int)
  | Compress3 (fit : ColourFit) (colours : ColourSet T) (flags : Int) (block : Int)
  | CompressAlphaDxt3 (rgba : T) (mask : Int) (block : Int)
  | CompressAlphaDxt5 (rgba : T) (mask : Int) (block : Int)
  deriving DecidableEq, Repr

/-- A call that `Decompress` makes into another translation unit; every one of them writes
into the `rgba` buffer that `Decompress` was given. -/
inductive DecodeCall
  | DecompressColour (block : Int) (isDxt1 : Bool)
  | DecompressAlphaDxt3 (block : Int)
  | DecompressAlphaDxt5 (block : Int)
  deriving DecidableEq, Repr

/-- Source function `void Compress_dxt1( u8 const* rgba, void* block, int flags )`.
`GetCount` is
`ColourSet::GetCount`, the number of points of a colour set. -/
def Compress_dxt1 {T : Type} (GetCount : ColourSet T → Nat) (rgba : T) (block : Int)
    (flags : Int) : List (Call T) :=
  -- get the block locations
  let colourBlock := block
  -- create the minimal point set
  let colours := ColourSet.full rgba flags
  -- check the compression type and compress colour
  if GetCount colours = 1 then
    [Call.Compress3 ColourFit.SingleColourFitFast colours flags colourBlock]
  else if GetCount colours = 2 then
    [Call.Compress3 ColourFit.TwoColourFitFast colours flags colourBlock]
  else if (flags &&& kColourRangeFit) ≠ 0 ∨ GetCount colours ≤ 4 then
    [Call.Compress3 ColourFit.RangeFit colours flags colourBlock]
  else
    [Call.Compress3 ColourFit.ClusterFit colours flags colourBlock]

/-- Source function `void CompressMasked( u8 const* rgba, int mask, void* block, int flags )`. -/
def CompressMasked {T : Type} (GetCount : ColourSet T → Nat) (rgba : T) (mask : Int)
    (block : Int) (flags : Int) : List (Call T) :=
  -- fix any bad flags
  let flags := FixFlags flags
  -- get the block locations
  let colourBlock := block
  let alphaBock := block
  let colourBlock := if (flags &&& (kDxt3 ||| kDxt5)) ≠ 0 then block + 8 else colourBlock
  -- create the minimal point set
  let colours := ColourSet.masked rgba mask flags
  -- check the compression type and compress colour
  let colourCalls :=
    if GetCount colours = 1 then
      [Call.Compress ColourFit.SingleColourFit colours flags colourBlock]
    else if (flags &&& kColourRangeFit) ≠ 0 ∨ GetCount colours = 0 then
      [Call.Compress ColourFit.RangeFit colours flags colourBlock]
    else
      [Call.Compress ColourFit.ClusterFit colours flags colourBlock]
  -- compress alpha separately if necessary
  let alphaCalls :=
    if (flags &&& kDxt3) ≠ 0 then [Call.CompressAlphaDxt3 rgba mask alphaBock]
    else if (flags &&& kDxt5) ≠ 0 then [Call.CompressAlphaDxt5 rgba mask alphaBock]
    else []
  colourCalls ++ alphaCalls

/-- Source function `void Compress( u8 const* rgba, void* block, int flags )`. -/
def Compress {T : Type} (GetCount : ColourSet T → Nat) (rgba : T) (block : Int)
    (flags : Int) : List (Call T) :=
  -- compress with full mask
  CompressMasked GetCount rgba 0xffff block flags

/-- Source function `void Decompress( u8* rgba, void const* block, int flags )`. -/
def Decompress (block : Int) (flags : Int) : List DecodeCall :=
  -- fix any bad flags
  let flags := FixFlags flags
  -- get the block locations
  let colourBlock := block
  let alphaBock := block
  let colourBlock := if (flags &&& (kDxt3 ||| kDxt5)) ≠ 0 then block + 8 else colourBlock
  -- decompress colour
  let colourCalls := [DecodeCall.DecompressColour colourBlock (decide ((flags &&& kDxt1) ≠ 0))]
  -- decompress alpha separately if necessary
  let alphaCalls :=
    if (flags &&& kDxt3) ≠ 0 then [DecodeCall.DecompressAlphaDxt3 alphaBock]
    else if (flags &&& kDxt5) ≠ 0 then [DecodeCall.DecompressAlphaDxt5 alphaBock]
    else []
  colourCalls ++ alphaCalls

/-- The colour fits that a sequence of calls runs, in order. -/
def colourFits {T : Type} : List (Call T) → List ColourFit
  | [] => []
  | Call.Compress fit _ _ _ :: rest => fit :: colourFits rest
  | Call.Compress3 fit _ _ _ :: rest => fit :: colourFits rest
  | Call.CompressAlphaDxt3 _ _ _ :: rest => colourFits rest
  | Call.CompressAlphaDxt5 _ _ _ :: rest => colourFits rest

/-- The fit that the specification prescribes for `CompressMasked`, as a function of the point
count and the normalised flags: single-colour for one point, range fit for no point or when
the fit quality is range, cluster fit otherwise. -/
def specFit (count : Nat) (flags : Int) : ColourFit :=
  if count = 1 then ColourFit.SingleColourFit
  else if count = 0 ∨ fitBits flags = kColourRangeFit then ColourFit.RangeFit
  else ColourFit.ClusterFit

/-- The fit that `Compress_dxt1` runs, as a function of the point count and the normalised
flags: closed forms for one and two points, range fit when the fit quality is range or there
are at most four points, cluster fit otherwise. -/
def specFit3 (count : Nat) (flags : Int) : ColourFit :=
  if count = 1 then ColourFit.SingleColourFitFast
  else if count = 2 then ColourFit.TwoColourFitFast
  else if fitBits flags = kColourRangeFit ∨ count ≤ 4 then ColourFit.RangeFit
  else ColourFit.ClusterFit

/-! ### The image compressor -/

/-- A call `CompressMasked( sourceRgba, mask, targetBlock, flags )` made by an image
compressor, with the tile origin `(x, y)` of the loops at the time of the call.  A byte of
`sourceRgba` that was never written holds no defined value and is `none`. -/
structure TileCall where
  x : Int
  y : Int
  sourceRgba : List (Option Nat)
  mask : Int
  targetBlock : Int
  flags : Int
  deriving DecidableEq, Repr

/-- The body of the two pixel loops of `CompressImage` for the pixel `(px, py)` of the tile at
`(x, y)`.  The state is the part of `sourceRgba` that lies before `targetPixel`, and `mask`.
`rgba` maps a byte offset into the source image to the byte stored there. -/
def CompressImage.pixel (rgba : Int → Nat) (width height x y py px : Int)
    (st : List (Option Nat) × Int) : List (Option Nat) × Int :=
  -- get the source pixel in the image
  let sx := x + px
  let sy := y + py
  -- enable if we're in the image
  if sx < width ∧ sy < height then
    -- copy the rgba value
    let sourcePixel := 4 * (width * sy + sx)
    let copied := ([0, 1, 2, 3] : List Int).map (fun i => some (rgba (sourcePixel + i)))
    -- enable this pixel
    (st.1 ++ copied, st.2 ||| ((1 : Int) <<< (4 * py + px)))
  else
    -- skip this pixel as its outside the image
    (st.1 ++ [none, none, none, none], st.2)

/-- The two pixel loops of `CompressImage`: the tile buffer and the mask of the tile at
`(x, y)`. -/
def CompressImage.buildTile (rgba : Int → Nat) (width height x y : Int) :
    List (Option Nat) × Int :=
  ([0, 1, 2, 3] : List Int).foldl
    (fun st py =>
      ([0, 1, 2, 3] : List Int).foldl
        (fun st px => CompressImage.pixel rgba width height x y py px st) st)
    ([], 0)

/-- The loop over `x` of `CompressImage` for the tile row at `y`; `fuel` bounds the number of
iterations and `none` means that it ran out. -/
def CompressImage.tiles (rgba : Int → Nat) (width height flags bytesPerBlock y : Int) :
    Nat → Int → Int → List TileCall → Option (Int × List TileCall)
  | 0, _, _, _ => none
  | fuel + 1, x, targetBlock, calls =>
    if x < width then
      -- build the 4x4 block of pixels
      let tile := CompressImage.buildTile rgba width height x y
      -- compress it into the output
      let call : TileCall := ⟨x, y, tile.1, tile.2, targetBlock, flags⟩
      -- advance
      CompressImage.tiles rgba width height flags bytesPerBlock y fuel (x + 4)
        (targetBlock + bytesPerBlock) (calls ++ [call])
    else
      some (targetBlock, calls)

/-- The loop over `y` of `CompressImage`. -/
def CompressImage.rows (rgba : Int → Nat) (width height flags bytesPerBlock : Int) :
    Nat → Int → Int → List TileCall → Option (Int × List TileCall)
  | 0, _, _, _ => none
  | fuel + 1, y, targetBlock, calls =>
    if y < height then
      match CompressImage.tiles rgba width height flags bytesPerBlock y (width.toNat + 1) 0
          targetBlock calls with
      | none => none
      | some (targetBlock, calls) =>
        CompressImage.rows rgba width height flags bytesPerBlock fuel (y + 4) targetBlock calls
    else
      some (targetBlock, calls)

/-- Source function
`void CompressImage( u8 const* rgba, int width, int height, void* blocks, int flags )`.
The result is the final value of `targetBlock`, as an offset from `blocks`, and the calls of
`CompressMasked` in the order in which they are made.  The loops get `height + 1` and
`width + 1` units of fuel, which is more than they use. -/
def CompressImage (rgba : Int → Nat) (width height flags : Int) :
    Option (Int × List TileCall) :=
  -- fix any bad flags
  let flags := FixFlags flags
  -- initialise the block output
  let targetBlock : Int := 0
  let bytesPerBlock : Int := if (flags &&& kDxt1) ≠ 0 then 8 else 16
  -- loop over blocks
  CompressImage.rows rgba width height flags bytesPerBlock (height.toNat + 1) 0 targetBlock []


/-- The call that `CompressImage` makes for the tile at `(x, y)` when `targetBlock` is `tb`. -/
def CompressImage.callAt (rgba : Int → Nat) (width height flags x y tb : Int) : TileCall :=
  ⟨x, y, (CompressImage.buildTile rgba width height x y).1,
    (CompressImage.buildTile rgba width height x y).2, tb, flags⟩

/-- The calls for `n` consecutive tiles of the row at `y`, from the tile at `x` on. -/
def CompressImage.rowCalls (rgba : Int → Nat) (width height flags bytesPerBlock y : Int) :
    Nat → Int → Int → List TileCall
  | 0, _, _ => []
  | n + 1, x, tb =>
    CompressImage.callAt rgba width height flags x y tb ::
      CompressImage.rowCalls rgba width height flags bytesPerBlock y n (x + 4)
        (tb + bytesPerBlock)

/-- The calls for `m` consecutive tile rows of `cw` tiles each, from the row at `y` on. -/
def CompressImage.imageCalls (rgba : Int → Nat) (width height flags bytesPerBlock : Int)
    (cw : Nat) : Nat → Int → Int → List TileCall
  | 0, _, _ => []
  | m + 1, y, tb =>
    CompressImage.rowCalls rgba width height flags bytesPerBlock y cw 0 tb ++
      CompressImage.imageCalls rgba width height flags bytesPerBlock cw m (y + 4)
        (tb + cw * bytesPerBlock)

/-- The number of steps of 4 from `x` until `width` is reached. -/
def stepsLeft (width x : Int) : Nat := ((width - x + 3) / 4).toNat

/-- Whether pixel number `k` (row-major, `k = 4*py + px`) of the tile at `(x, y)` lies in the
image. -/
def inImage (width height x y : Int) (k : Nat) : Bool :=
  decide (x + ((k % 4 : Nat) : Int) < width ∧ y + ((k / 4 : Nat) : Int) < height)

/-- What holds of the state of the pixel loops of `CompressImage` once the first `s` pixels of
the tile at `(x, y)` are done: `4 * s` bytes lie before `targetPixel`, the bytes of every pixel
in the image are those of the source pixel, and the mask has exactly the bits of the pixels in
the image among the first `s`. -/
def CompressImage.TileInv (rgba : Int → Nat) (width height x y : Int) (s : Nat)
    (st : List (Option Nat) × Int) : Prop :=
  st.1.length = 4 * s ∧
  (∀ t i : Nat, t < s → i < 4 → inImage width height x y t = true →
    st.1[4 * t + i]?
      = some (some (rgba (4 * (width * (y + ((t / 4 : Nat) : Int)) + (x + ((t % 4 : Nat) : Int)))
          + (i : Int))))) ∧
  (∀ k : Nat, Int.testBit st.2 k = (decide (k < s) && inImage width height x y k))

/-! ### The other image functions -/

/-- The body of the two pixel loops of `CompressImageRGB` for the pixel `(px, py)` of the tile
at `(x, y)`; the state is as in `CompressImage.pixel`.  `rgb` maps a byte offset into the
source image, three bytes per pixel, to the byte stored there. -/
def CompressImageRGB.pixel (rgb : Int → Nat) (width height x y py px : Int)
    (st : List (Option Nat) × Int) : List (Option Nat) × Int :=
  -- get the source pixel in the image
  let sx := x + px
  let sy := y + py
  -- enable if we're in the image
  if sx < width ∧ sy < height then
    -- copy the rgba value
    let sourcePixel := 3 * (width * sy + sx)
    let copied := ([0, 1, 2] : List Int).map (fun i => some (rgb (sourcePixel + i)))
    -- enable this pixel
    (st.1 ++ copied ++ [some 255], st.2 ||| ((1 : Int) <<< (4 * py + px)))
  else
    -- skip this pixel as its outside the image
    (st.1 ++ [none, none, none, none], st.2)

/-- The two pixel loops of `CompressImageRGB`: the tile buffer and the mask of the tile at
`(x, y)`. -/
def CompressImageRGB.buildTile (rgb : Int → Nat) (width height x y : Int) :
    List (Option Nat) × Int :=
  ([0, 1, 2, 3] : List Int).foldl
    (fun st py =>
      ([0, 1, 2, 3] : List Int).foldl
        (fun st px => CompressImageRGB.pixel rgb width height x y py px st) st)
    ([], 0)

/-- The loop over `x` of `CompressImageRGB` for the tile row at `y`, with fuel. -/
def CompressImageRGB.tiles (rgb : Int → Nat) (width height flags bytesPerBlock y : Int) :
    Nat → Int → Int → List TileCall → Option (Int × List TileCall)
  | 0, _, _, _ => none
  | fuel + 1, x, targetBlock, calls =>
    if x < width then
      -- build the 4x4 block of pixels
      let tile := CompressImageRGB.buildTile rgb width height x y
      -- compress it into the output
      let call : TileCall := ⟨x, y, tile.1, tile.2, targetBlock, flags⟩
      -- advance
      CompressImageRGB.tiles rgb width height flags bytesPerBlock y fuel (x + 4)
        (targetBlock + bytesPerBlock) (calls ++ [call])
    else
      some (targetBlock, calls)

/-- The loop over `y` of `CompressImageRGB`, with fuel. -/
def CompressImageRGB.rows (rgb : Int → Nat) (width height flags bytesPerBlock : Int) :
    Nat → Int → Int → List TileCall → Option (Int × List TileCall)
  | 0, _, _, _ => none
  | fuel + 1, y, targetBlock, calls =>
    if y < height then
      match CompressImageRGB.tiles rgb width height flags bytesPerBlock y (width.toNat + 1) 0
          targetBlock calls with
      | none => none
      | some (targetBlock, calls) =>
        CompressImageRGB.rows rgb width height flags bytesPerBlock fuel (y + 4) targetBlock
          calls
    else
      some (targetBlock, calls)

/-- Source function
`void CompressImageRGB( u8 const* rgb, int width, int height, void* blocks, int flags )`.
The result is as for `CompressImage`. -/
def CompressImageRGB (rgb : Int → Nat) (width height flags : Int) :
    Option (Int × List TileCall) :=
  -- fix any bad flags
  let flags := FixFlags flags
  -- initialise the block output
  let targetBlock : Int := 0
  let bytesPerBlock : Int := if (flags &&& kDxt1) ≠ 0 then 8 else 16
  -- loop over blocks
  CompressImageRGB.rows rgb width height flags bytesPerBlock (height.toNat + 1) 0 targetBlock []

/-- The RGBA image that has the three bytes of every pixel of `rgb` followed by alpha 255. -/
def opaqueRGBA (rgb : Int → Nat) : Int → Nat :=
  fun i => if i % 4 = 3 then 255 else rgb (3 * (i / 4) + i % 4)

/-- What `DecompressImage` does for one tile: the call `Decompress( targetRgba, sourceBlock,
flags )` made for the tile at `(x, y)`, and the bytes then stored into the image, in order,
each with its byte offset into `rgba`. -/
structure TileDecode where
  x : Int
  y : Int
  sourceBlock : Int
  flags : Int
  writes : List (Int × Nat)
  deriving DecidableEq, Repr

/-- The body of the two pixel loops of `DecompressImage` for the pixel `(px, py)` of the tile
at `(x, y)`.  The state is `sourcePixel`, as an offset into `targetRgba`, and the bytes stored
into the image so far.  `targetRgba` maps an offset into the decompressed tile to the byte
there. -/
def DecompressImage.pixel (targetRgba : Int → Nat) (width height x y py px : Int)
    (st : Int × List (Int × Nat)) : Int × List (Int × Nat) :=
  -- get the target location
  let sx := x + px
  let sy := y + py
  if sx < width ∧ sy < height then
    let targetPixel := 4 * (width * sy + sx)
    -- copy the rgba value
    (st.1 + 4,
      st.2 ++ ([0, 1, 2, 3] : List Int).map (fun i => (targetPixel + i, targetRgba (st.1 + i))))
  else
    -- skip this pixel as its outside the image
    (st.1 + 4, st.2)

/-- The two pixel loops of `DecompressImage` for the tile at `(x, y)`. -/
def DecompressImage.writeTile (targetRgba : Int → Nat) (width height x y : Int) :
    Int × List (Int × Nat) :=
  ([0, 1, 2, 3] : List Int).foldl
    (fun st py =>
      ([0, 1, 2, 3] : List Int).foldl
        (fun st px => DecompressImage.pixel targetRgba width height x y py px st) st)
    (0, [])

/-- The loop over `x` of `DecompressImage` for the tile row at `y`, with fuel.  `decoded`
gives the content of `targetRgba` after the calls that `Decompress` makes on a block. -/
def DecompressImage.tiles (decoded : List DecodeCall → Int → Nat)
    (width height flags bytesPerBlock y : Int) :
    Nat → Int → Int → List TileDecode → Option (Int × List TileDecode)
  | 0, _, _, _ => none
  | fuel + 1, x, sourceBlock, decodes =>
    if x < width then
      -- decompress the block
      let targetRgba := decoded (Decompress sourceBlock flags)
      -- write the decompressed pixels to the correct image locations
      let written := DecompressImage.writeTile targetRgba width height x y
      let decode : TileDecode := ⟨x, y, sourceBlock, flags, written.2⟩
      -- advance
      DecompressImage.tiles decoded width height flags bytesPerBlock y fuel (x + 4)
        (sourceBlock + bytesPerBlock) (decodes ++ [decode])
    else
      some (sourceBlock, decodes)

/-- The loop over `y` of `DecompressImage`, with fuel. -/
def DecompressImage.rows (decoded : List DecodeCall → Int → Nat)
    (width height flags bytesPerBlock : Int) :
    Nat → Int → Int → List TileDecode → Option (Int × List TileDecode)
  | 0, _, _, _ => none
  | fuel + 1, y, sourceBlock, decodes =>
    if y < height then
      match DecompressImage.tiles decoded width height flags bytesPerBlock y (width.toNat + 1) 0
          sourceBlock decodes with
      | none => none
      | some (sourceBlock, decodes) =>
        DecompressImage.rows decoded width height flags bytesPerBlock fuel (y + 4) sourceBlock
          decodes
    else
      some (sourceBlock, decodes)

/-- Source function
`void DecompressImage( u8* rgba, int width, int height, void const* blocks, int flags )`.
The result is the final value of `sourceBlock`, as an offset from `blocks`, and what was done
for each tile, in order. -/
def DecompressImage (decoded : List DecodeCall → Int → Nat) (width height flags : Int) :
    Option (Int × List TileDecode) :=
  -- fix any bad flags
  let flags := FixFlags flags
  -- initialise the block input
  let sourceBlock : Int := 0
  let bytesPerBlock : Int := if (flags &&& kDxt1) ≠ 0 then 8 else 16
  -- loop over blocks
  DecompressImage.rows decoded width height flags bytesPerBlock (height.toNat + 1) 0
    sourceBlock []

/-- The byte offsets into the source image that the body of the pixel loops of `CompressImage`
reads for the pixel `(px, py)` of the tile at `(x, y)`. -/
def CompressImage.pixelReads (width height x y py px : Int) : List Int :=
  let sx := x + px
  let sy := y + py
  if sx < width ∧ sy < height then
    let sourcePixel := 4 * (width * sy + sx)
    ([0, 1, 2, 3] : List Int).map (fun i => sourcePixel + i)
  else
    []

/-- The block pointer that a call into a fit or an alpha codec is given; the callee writes
the 8 bytes from there on. -/
def Call.block {T : Type} : Call T → Int
  | Call.Compress _ _ _ block => block
  | Call.Compress3 _ _ _ block => block
  | Call.CompressAlphaDxt3 _ _ block => block
  | Call.CompressAlphaDxt5 _ _ block => block

/-- The block pointer that a call into a decoder is given; the callee reads the 8 bytes from
there on. -/
def DecodeCall.block : DecodeCall → Int
  | DecodeCall.DecompressColour block _ => block
  | DecodeCall.DecompressAlphaDxt3 block => block
  | DecodeCall.DecompressAlphaDxt5 block => block

/-- A call `Compress_dxt1( sourceRgba, targetBlock, flags )` made by
`CompressImageRGBpow2_Flatten_Throttle_Abort`, with the tile origin `(x, y)` of the loops at
the time of the call. -/
structure Dxt1Call where
  x : Int
  y : Int
  sourceRgba : List (Option Nat)
  targetBlock : Int
  flags : Int
  deriving DecidableEq, Repr

/-- The masks `(r_flat_mask, g_flat_mask, b_flat_mask)` that
`CompressImageRGBpow2_Flatten_Throttle_Abort` sets up from `b_flatten`. -/
def FlattenThrottleAbort.flatMasks (b_flatten : Bool) : Nat × Nat × Nat :=
  let r_flat_mask : Nat := 0xff
  let g_flat_mask : Nat := 0xff
  let b_flat_mask : Nat := 0xff
  if b_flatten then (0xf8, 0xfc, 0xf8) else (r_flat_mask, g_flat_mask, b_flat_mask)

/-- The column `sx = x + (px % bw)` of the source pixel for column `px` of the tile at `x`;
`%` on `int` truncates towards zero. -/
def FlattenThrottleAbort.sx (x bw px : Int) : Int := x + px.tmod bw

/-- The row `sy = y + (py % bh)` of the source pixel for row `py` of the tile at `y`. -/
def FlattenThrottleAbort.sy (y bh py : Int) : Int := y + py.tmod bh

/-- The offset `sourcePixel - rgb` of the source pixel for pixel `(px, py)` of the tile at
`(x, y)`. -/
def FlattenThrottleAbort.sourcePixel (width x y bw bh py px : Int) : Int :=
  -- get the source pixel in the image
  let sx := FlattenThrottleAbort.sx x bw px
  let sy := FlattenThrottleAbort.sy y bh py
  3 * (width * sy + sx)

/-- The body of the two pixel loops of `CompressImageRGBpow2_Flatten_Throttle_Abort`; the
state is the part of `sourceRgba` that lies before `targetPixel`. -/
def FlattenThrottleAbort.pixel (rgb : Int → Nat) (width x y bw bh : Int)
    (masks : Nat × Nat × Nat) (py px : Int) (st : List (Option Nat)) : List (Option Nat) :=
  -- copy the rgba value
  let sourcePixel := FlattenThrottleAbort.sourcePixel width x y bw bh py px
  st ++ [some (rgb (sourcePixel + 0) &&& masks.1), some (rgb (sourcePixel + 1) &&& masks.2.1),
    some (rgb (sourcePixel + 2) &&& masks.2.2), some 255]

/-- The two pixel loops of `CompressImageRGBpow2_Flatten_Throttle_Abort`: the tile buffer of
the tile at `(x, y)`. -/
def FlattenThrottleAbort.buildTile (rgb : Int → Nat) (width x y bw bh : Int)
    (masks : Nat × Nat × Nat) : List (Option Nat) :=
  ([0, 1, 2, 3] : List Int).foldl
    (fun st py =>
      ([0, 1, 2, 3] : List Int).foldl
        (fun st px => FlattenThrottleAbort.pixel rgb width x y bw bh masks py px st) st)
    []

/-- The loop over `x` of `CompressImageRGBpow2_Flatten_Throttle_Abort` for the tile row at
`y`, with fuel. -/
def FlattenThrottleAbort.tiles (rgb : Int → Nat) (width flags bytesPerBlock bw bh : Int)
    (masks : Nat × Nat × Nat) (y : Int) :
    Nat → Int → Int → List Dxt1Call → Option (Int × List Dxt1Call)
  | 0, _, _, _ => none
  | fuel + 1, x, targetBlock, calls =>
    if x < width then
      -- build the 4x4 block of pixels
      let sourceRgba := FlattenThrottleAbort.buildTile rgb width x y bw bh masks
      -- compress it into the output
      let call : Dxt1Call := ⟨x, y, sourceRgba, targetBlock, flags⟩
      -- advance
      FlattenThrottleAbort.tiles rgb width flags bytesPerBlock bw bh masks y fuel (x + 4)
        (targetBlock + bytesPerBlock) (calls ++ [call])
    else
      some (targetBlock, calls)

/-- The loop over `y` of `CompressImageRGBpow2_Flatten_Throttle_Abort`, with fuel.
`throttle` says whether the callback pointer is non-null and `throttles` counts the calls of
it; `b_abort n` is the value that the `n`-th read of the volatile flag yields and `polls`
counts the reads so far. -/
def FlattenThrottleAbort.rows (rgb : Int → Nat) (width height flags bytesPerBlock bw bh : Int)
    (masks : Nat × Nat × Nat) (throttle : Bool) (b_abort : Nat → Bool) :
    Nat → Int → Int → List Dxt1Call → Nat → Nat → Option (Int × List Dxt1Call × Nat)
  | 0, _, _, _, _, _ => none
  | fuel + 1, y, targetBlock, calls, throttles, polls =>
    if y < height then
      match FlattenThrottleAbort.tiles rgb width flags bytesPerBlock bw bh masks y
          (width.toNat + 1) 0 targetBlock calls with
      | none => none
      | some (targetBlock, calls) =>
        let throttles := if throttle then throttles + 1 else throttles
        if b_abort polls then
          some (targetBlock, calls, throttles)
        else
          FlattenThrottleAbort.rows rgb width height flags bytesPerBlock bw bh masks throttle
            b_abort fuel (y + 4) targetBlock calls throttles (polls + 1)
    else
      some (targetBlock, calls, throttles)

/-- Source function `void CompressImageRGBpow2_Flatten_Throttle_Abort( u8 const* rgb,
int width, int height, void* blocks, int flags, bool b_flatten, void (*throttle)(void*),
void *throttle_data, volatile bool &b_abort )`.  The result is the final value of
`targetBlock`, the calls of `Compress_dxt1` in order, and the number of calls of
`throttle`. -/
def CompressImageRGBpow2_Flatten_Throttle_Abort (rgb : Int → Nat) (width height flags : Int)
    (b_flatten : Bool) (throttle : Bool) (b_abort : Nat → Bool) :
    Option (Int × List Dxt1Call × Nat) :=
  -- fix any bad flags
  let flags := FixFlags flags
  -- initialise the block output
  let targetBlock : Int := 0
  let bytesPerBlock : Int := if (flags &&& kDxt1) ≠ 0 then 8 else 16
  let masks := FlattenThrottleAbort.flatMasks b_flatten
  -- loop over blocks
  let bw := min width 4
  let bh := min height 4
  FlattenThrottleAbort.rows rgb width height flags bytesPerBlock bw bh masks throttle b_abort
    (height.toNat + 1) 0 targetBlock [] 0 0

/-- The call that the variant makes for the tile at `(x, y)` when `targetBlock` is `tb`. -/
def FlattenThrottleAbort.callAt (rgb : Int → Nat) (width flags bw bh : Int)
    (masks : Nat × Nat × Nat) (x y tb : Int) : Dxt1Call :=
  ⟨x, y, FlattenThrottleAbort.buildTile rgb width x y bw bh masks, tb, flags⟩

/-- The calls for `n` consecutive tiles of the row at `y`, from the tile at `x` on. -/
def FlattenThrottleAbort.rowCalls (rgb : Int → Nat) (width flags bytesPerBlock bw bh : Int)
    (masks : Nat × Nat × Nat) (y : Int) : Nat → Int → Int → List Dxt1Call
  | 0, _, _ => []
  | n + 1, x, tb =>
    FlattenThrottleAbort.callAt rgb width flags bw bh masks x y tb ::
      FlattenThrottleAbort.rowCalls rgb width flags bytesPerBlock bw bh masks y n (x + 4)
        (tb + bytesPerBlock)

/-- The calls for `m` consecutive tile rows of `cw` tiles each, from the row at `y` on. -/
def FlattenThrottleAbort.imageCalls (rgb : Int → Nat) (width flags bytesPerBlock bw bh : Int)
    (masks : Nat × Nat × Nat) (cw : Nat) : Nat → Int → Int → List Dxt1Call
  | 0, _, _ => []
  | m + 1, y, tb =>
    FlattenThrottleAbort.rowCalls rgb width flags bytesPerBlock bw bh masks y cw 0 tb ++
      FlattenThrottleAbort.imageCalls rgb width flags bytesPerBlock bw bh masks cw m (y + 4)
        (tb + cw * bytesPerBlock)

/-- The number of tile rows that the variant compresses when `m` rows are left and the reads of
the flag from number `p` on yield `b_abort p`, `b_abort (p + 1)`, ...: it stops after the
first row whose read yields true. -/
def FlattenThrottleAbort.rowsRun (b_abort : Nat → Bool) : Nat → Nat → Nat
  | 0, _ => 0
  | m + 1, p => if b_abort p then 1 else FlattenThrottleAbort.rowsRun b_abort m (p + 1) + 1

/-- What holds of the tile buffer of the variant once the first `s` pixels of the tile at
`(x, y)` are done: `4 * s` bytes lie before `targetPixel`, and the four bytes of each of these
pixels are the three bytes of its source pixel, each under its mask, followed by 255. -/
def FlattenThrottleAbort.TileInv (rgb : Int → Nat) (width x y bw bh : Int)
    (masks : Nat × Nat × Nat) (s : Nat) (st : List (Option Nat)) : Prop :=
  st.length = 4 * s ∧
  ∀ t : Nat, t < s →
    st[4 * t]? = some (some (rgb (FlattenThrottleAbort.sourcePixel width x y bw bh
        ((t / 4 : Nat) : Int) ((t % 4 : Nat) : Int) + 0) &&& masks.1)) ∧
    st[4 * t + 1]? = some (some (rgb (FlattenThrottleAbort.sourcePixel width x y bw bh
        ((t / 4 : Nat) : Int) ((t % 4 : Nat) : Int) + 1) &&& masks.2.1)) ∧
    st[4 * t + 2]? = some (some (rgb (FlattenThrottleAbort.sourcePixel width x y bw bh
        ((t / 4 : Nat) : Int) ((t % 4 : Nat) : Int) + 2) &&& masks.2.2)) ∧
    st[4 * t + 3]? = some (some 255)

/-- The image whose bytes are those of `rgb` under the channel masks: byte `i` belongs to
channel `i mod 3`. -/
def flattenImage (masks : Nat × Nat × Nat) (rgb : Int → Nat) : Int → Nat :=
  fun i =>
    rgb i &&& (if i % 3 = 0 then masks.1 else if i % 3 = 1 then masks.2.1 else masks.2.2)

/-- The nine low bits of an `int`, as a natural number below 512. -/
def low9 (x : Int) : Nat := (x % 512).toNat

/-! ## Theorems -/

/-! ### Bitwise and with a small constant only sees the low nine bits -/

theorem nat_land_mod (n m k : Nat) (hm : m < 2 ^ k) : n &&& m = (n % 2 ^ k) &&& m := by
  apply Nat.eq_of_testBit_eq
  intro i
  simp only [Nat.testBit_and, Nat.testBit_mod_two_pow]
  by_cases hi : i < k
  · simp [hi]
  · have hbit : m.testBit i = false := by
      apply Nat.testBit_lt_two_pow
      exact lt_of_lt_of_le hm (Nat.pow_le_pow_right (by decide) (by omega))
    simp [hbit]

theorem nat_ldiff_mod (n m k : Nat) (hm : m < 2 ^ k) :
    Nat.ldiff m n = (2 ^ k - (n % 2 ^ k + 1)) &&& m := by
  apply Nat.eq_of_testBit_eq
  intro i
  have hlt : n % 2 ^ k < 2 ^ k := Nat.mod_lt _ (by positivity)
  rw [Nat.testBit_ldiff, Nat.testBit_and, Nat.testBit_two_pow_sub_succ hlt,
    Nat.testBit_mod_two_pow]
  by_cases hi : i < k
  · simp [hi, Bool.and_comm]
  · have hbit : m.testBit i = false := by
      apply Nat.testBit_lt_two_pow
      exact lt_of_lt_of_le hm (Nat.pow_le_pow_right (by decide) (by omega))
    simp [hbit]

theorem low9_lt (x : Int) : low9 x < 512 := by
  unfold low9
  omega

theorem land_low9 (x : Int) (m : Nat) (hm : m < 512) :
    Int.land x m = Int.land (low9 x : Int) m := by
  unfold low9
  cases x with
  | ofNat n =>
    have h1 : (Int.ofNat n % 512).toNat = n % 2 ^ 9 := by
      simp
      omega
    rw [h1]
    show ((n &&& m : Nat) : Int) = ((n % 2 ^ 9 &&& m : Nat) : Int)
    rw [← nat_land_mod n m 9 (by omega)]
  | negSucc n =>
    have h1 : (Int.negSucc n % 512).toNat = 2 ^ 9 - (n % 2 ^ 9 + 1) := by
      rw [Int.negSucc_eq]
      omega
    rw [h1]
    show ((Nat.ldiff m n : Nat) : Int) = ((2 ^ 9 - (n % 2 ^ 9 + 1) &&& m : Nat) : Int)
    rw [nat_ldiff_mod n m 9 (by omega)]

theorem methodBits_low9 (x : Int) : methodBits x = methodBits (low9 x) :=
  land_low9 x 7 (by decide)

theorem fitBits_low9 (x : Int) : fitBits x = fitBits (low9 x) :=
  land_low9 x 280 (by decide)

theorem metricBits_low9 (x : Int) : metricBits x = metricBits (low9 x) :=
  land_low9 x 96 (by decide)

theorem alphaBit_low9 (x : Int) :
    x &&& kWeightColourByAlpha = (low9 x : Int) &&& kWeightColourByAlpha :=
  land_low9 x 128 (by decide)

theorem knownBits_low9 (x : Int) : x &&& knownBits = (low9 x : Int) &&& knownBits :=
  land_low9 x 511 (by decide)

theorem FixFlags_low9 (x : Int) : FixFlags x = FixFlags (low9 x) := by
  have h1 : x &&& (kDxt1 ||| kDxt3 ||| kDxt5) = (low9 x : Int) &&& (kDxt1 ||| kDxt3 ||| kDxt5) :=
    land_low9 x 7 (by decide)
  have h2 : x &&& (kColourIterativeClusterFit ||| kColourClusterFit ||| kColourRangeFit)
      = (low9 x : Int) &&& (kColourIterativeClusterFit ||| kColourClusterFit ||| kColourRangeFit) :=
    land_low9 x 280 (by decide)
  have h3 : x &&& (kColourMetricPerceptual ||| kColourMetricUniform)
      = (low9 x : Int) &&& (kColourMetricPerceptual ||| kColourMetricUniform) :=
    land_low9 x 96 (by decide)
  have h4 := alphaBit_low9 x
  unfold FixFlags
  simp only [h1, h2, h3, h4]

set_option maxRecDepth 1000000 in
theorem FixFlags_idem_low (n : Nat) (hn : n < 512) :
    FixFlags (FixFlags (n : Int)) = FixFlags (n : Int) := by
  revert n
  decide

set_option maxRecDepth 1000000 in
theorem FixFlags_canonical_low (n : Nat) (hn : n < 512) : IsCanonical (FixFlags (n : Int)) := by
  revert n
  decide

/-- C1: `FixFlags` is idempotent on every `int`. -/
theorem FixFlags_idempotent (flags : Int) : FixFlags (FixFlags flags) = FixFlags flags := by
  rw [FixFlags_low9 flags]
  exact FixFlags_idem_low _ (low9_lt flags)

theorem FixFlags_canonical (flags : Int) : IsCanonical (FixFlags flags) := by
  rw [FixFlags_low9 flags]
  exact FixFlags_canonical_low _ (low9_lt flags)

/-- C2: for every `int`, `FixFlags` returns a canonical configuration: exactly one method bit,
exactly one fit bit, exactly one metric bit, and no bit outside the nine defined ones. -/
theorem FixFlags_isCanonical (flags : Int) : IsCanonical (FixFlags flags) :=
  FixFlags_canonical flags

set_option maxRecDepth 1000000 in
theorem FixFlags_axes_low (n : Nat) (hn : n < 512) :
    (methodBits (FixFlags (n : Int)) = kDxt3 ↔ methodBits (n : Int) = kDxt3) ∧
    (methodBits (FixFlags (n : Int)) = kDxt5 ↔ methodBits (n : Int) = kDxt5) ∧
    (methodBits (FixFlags (n : Int)) = kDxt1 ↔
      ¬ (methodBits (n : Int) = kDxt3 ∨ methodBits (n : Int) = kDxt5)) ∧
    (fitBits (FixFlags (n : Int)) = kColourRangeFit ↔ fitBits (n : Int) = kColourRangeFit) ∧
    (fitBits (FixFlags (n : Int)) = kColourIterativeClusterFit ↔
      fitBits (n : Int) = kColourIterativeClusterFit) ∧
    (fitBits (FixFlags (n : Int)) = kColourClusterFit ↔
      ¬ (fitBits (n : Int) = kColourRangeFit ∨ fitBits (n : Int) = kColourIterativeClusterFit)) ∧
    (metricBits (FixFlags (n : Int)) = kColourMetricUniform ↔
      metricBits (n : Int) = kColourMetricUniform) ∧
    (metricBits (FixFlags (n : Int)) = kColourMetricPerceptual ↔
      ¬ metricBits (n : Int) = kColourMetricUniform) ∧
    FixFlags (n : Int) &&& kWeightColourByAlpha = (n : Int) &&& kWeightColourByAlpha := by
  revert n
  decide

set_option maxRecDepth 1000000 in
theorem FixFlags_fixed_low (n : Nat) (hn : n < 512) (hc : IsCanonical ((n : Int) &&& knownBits)) :
    FixFlags ((n : Int) &&& knownBits) = (n : Int) &&& knownBits := by
  revert n
  decide

/-- C3: `FixFlags` keeps every axis whose bits are well formed and defaults the others
(method `kDxt1`, fit `kColourClusterFit`, metric `kColourMetricPerceptual`), copies the
`kWeightColourByAlpha` bit, and its fixed points are exactly the canonical configurations. -/
theorem FixFlags_keeps_wellformed_axes (flags : Int) :
    (methodBits (FixFlags flags) = kDxt3 ↔ methodBits flags = kDxt3) ∧
    (methodBits (FixFlags flags) = kDxt5 ↔ methodBits flags = kDxt5) ∧
    (methodBits (FixFlags flags) = kDxt1 ↔
      ¬ (methodBits flags = kDxt3 ∨ methodBits flags = kDxt5)) ∧
    (fitBits (FixFlags flags) = kColourRangeFit ↔ fitBits flags = kColourRangeFit) ∧
    (fitBits (FixFlags flags) = kColourIterativeClusterFit ↔
      fitBits flags = kColourIterativeClusterFit) ∧
    (fitBits (FixFlags flags) = kColourClusterFit ↔
      ¬ (fitBits flags = kColourRangeFit ∨ fitBits flags = kColourIterativeClusterFit)) ∧
    (metricBits (FixFlags flags) = kColourMetricUniform ↔
      metricBits flags = kColourMetricUniform) ∧
    (metricBits (FixFlags flags) = kColourMetricPerceptual ↔
      ¬ metricBits flags = kColourMetricUniform) ∧
    FixFlags flags &&& kWeightColourByAlpha = flags &&& kWeightColourByAlpha ∧
    (FixFlags flags = flags ↔ IsCanonical flags) := by
  have hlow := FixFlags_axes_low (low9 flags) (low9_lt flags)
  rw [← FixFlags_low9 flags, ← methodBits_low9 flags, ← fitBits_low9 flags,
    ← metricBits_low9 flags, ← alphaBit_low9 flags] at hlow
  obtain ⟨h1, h2, h3, h4, h5, h6, h7, h8, h9⟩ := hlow
  refine ⟨h1, h2, h3, h4, h5, h6, h7, h8, h9, ?_, ?_⟩
  · intro h
    rw [← h]
    exact FixFlags_canonical flags
  · intro hc
    have hk : flags &&& knownBits = flags := hc.2.2.2
    have hfix := FixFlags_fixed_low (low9 flags) (low9_lt flags)
    rw [← knownBits_low9 flags, hk] at hfix
    exact hfix hc

theorem ceil_div_four (w : Int) (hw : 0 ≤ w) : ⌈(w : ℚ) / 4⌉ = (w + 3).tdiv 4 := by
  have hdiv : (w + 3).tdiv 4 = (w + 3) / 4 := Int.tdiv_eq_ediv (by omega) (by decide)
  rw [hdiv, Int.ceil_eq_iff]
  have h1 : 4 * ((w + 3) / 4) ≤ w + 3 := Int.mul_ediv_self_le (by decide)
  have h2 : w + 3 < 4 * ((w + 3) / 4) + 4 := Int.lt_mul_ediv_self_add (by decide)
  have h3 : ∃ q : Int, w = 4 * q ∨ w = 4 * q + 1 ∨ w = 4 * q + 2 ∨ w = 4 * q + 3 :=
    ⟨w / 4, by omega⟩
  have h1q : w ≤ 4 * ((w + 3) / 4) := by omega
  have h2q : 4 * ((w + 3) / 4) < w + 4 := by omega
  have h1r : (w : ℚ) ≤ 4 * (((w + 3) / 4 : Int) : ℚ) := by exact_mod_cast h1q
  have h2r : 4 * (((w + 3) / 4 : Int) : ℚ) < (w : ℚ) + 4 := by exact_mod_cast h2q
  constructor <;> linarith

set_option maxRecDepth 1000000 in
theorem blocksize_low (n : Nat) (hn : n < 512) :
    ((if (FixFlags (n : Int) &&& kDxt1) ≠ 0 then 8 else 16 : Int)
      = if methodBits (FixFlags (n : Int)) = kDxt1 then 8 else 16) ∧
    ((if (FixFlags (n : Int) &&& kDxt1) ≠ 0 then 8 else 16 : Int)
      = if methodBits (n : Int) = kDxt3 ∨ methodBits (n : Int) = kDxt5 then 16 else 8) := by
  revert n
  decide

/-- The block size that the image functions compute from normalised flags is 8 when the
normalised method is `kDxt1` and 16 otherwise; in terms of the caller's flags it is 16 exactly
when the method bits are exactly `kDxt3` or exactly `kDxt5`. -/
theorem blocksize_eq (flags : Int) :
    ((if (FixFlags flags &&& kDxt1) ≠ 0 then 8 else 16 : Int)
      = if methodBits (FixFlags flags) = kDxt1 then 8 else 16) ∧
    ((if (FixFlags flags &&& kDxt1) ≠ 0 then 8 else 16 : Int)
      = if methodBits flags = kDxt3 ∨ methodBits flags = kDxt5 then 16 else 8) := by
  have hlow := blocksize_low (low9 flags) (low9_lt flags)
  rw [← FixFlags_low9 flags, ← methodBits_low9 flags] at hlow
  exact hlow

/-- The block count of `GetStorageRequirements` in terms of rational ceilings. -/
theorem GetStorageRequirements_ceil (width height flags : Int) (hw : 0 ≤ width)
    (hh : 0 ≤ height) :
    GetStorageRequirements width height flags
      = ⌈(width : ℚ) / 4⌉ * ⌈(height : ℚ) / 4⌉ *
          (if (FixFlags flags &&& kDxt1) ≠ 0 then 8 else 16) := by
  rw [ceil_div_four width hw, ceil_div_four height hh]
  rfl

/-- C4: for non-negative width and height, `GetStorageRequirements` is
`ceil(width/4) * ceil(height/4) * B`, where `B` is 8 when the normalised method is `kDxt1`
and 16 when it is `kDxt3` or `kDxt5`; equivalently `B` is 16 exactly when the caller's method
bits are exactly `kDxt3` or exactly `kDxt5`, and 8 for every other combination. -/
theorem GetStorageRequirements_eq (width height flags : Int) (hw : 0 ≤ width)
    (hh : 0 ≤ height) :
    GetStorageRequirements width height flags
      = ⌈(width : ℚ) / 4⌉ * ⌈(height : ℚ) / 4⌉ *
          (if methodBits (FixFlags flags) = kDxt1 then 8 else 16) ∧
    GetStorageRequirements width height flags
      = ⌈(width : ℚ) / 4⌉ * ⌈(height : ℚ) / 4⌉ *
          (if methodBits flags = kDxt3 ∨ methodBits flags = kDxt5 then 16 else 8) := by
  rw [GetStorageRequirements_ceil width height flags hw hh]
  obtain ⟨h1, h2⟩ := blocksize_eq flags
  exact ⟨by rw [← h1], by rw [← h2]⟩

/-- Witness for C4: a 5 x 5 image with flags 0 needs 2 * 2 blocks of 8 bytes. -/
theorem GetStorageRequirements_eq_witness :
    (0 : Int) ≤ 5 ∧ (0 : Int) ≤ 5 ∧
    (GetStorageRequirements 5 5 0
      = ⌈((5 : Int) : ℚ) / 4⌉ * ⌈((5 : Int) : ℚ) / 4⌉ *
          (if methodBits (FixFlags 0) = kDxt1 then 8 else 16) ∧
    GetStorageRequirements 5 5 0
      = ⌈((5 : Int) : ℚ) / 4⌉ * ⌈((5 : Int) : ℚ) / 4⌉ *
          (if methodBits (0 : Int) = kDxt3 ∨ methodBits (0 : Int) = kDxt5 then 16 else 8)) :=
  ⟨by decide, by decide, GetStorageRequirements_eq 5 5 0 (by decide) (by decide)⟩

/-! ### Dispatch -/

set_option maxRecDepth 1000000 in
theorem rangeBit_low (n : Nat) (hn : n < 512) :
    ((FixFlags (n : Int) &&& kColourRangeFit) ≠ 0 ↔
      fitBits (FixFlags (n : Int)) = kColourRangeFit) := by
  revert n
  decide

/-- On normalised flags the test `( flags & kColourRangeFit ) != 0` of the dispatchers says
that the fit quality is range. -/
theorem rangeBit_iff (flags : Int) :
    ((FixFlags flags &&& kColourRangeFit) ≠ 0 ↔ fitBits (FixFlags flags) = kColourRangeFit) := by
  have hlow := rangeBit_low (low9 flags) (low9_lt flags)
  rw [← FixFlags_low9 flags] at hlow
  exact hlow

set_option maxRecDepth 1000000 in
theorem method_cases_low (n : Nat) (hn : n < 512) :
    (methodBits (FixFlags (n : Int)) = kDxt1 ∧ FixFlags (n : Int) &&& (kDxt3 ||| kDxt5) = 0 ∧
      FixFlags (n : Int) &&& kDxt1 ≠ 0 ∧ FixFlags (n : Int) &&& kDxt3 = 0 ∧
      FixFlags (n : Int) &&& kDxt5 = 0) ∨
    (methodBits (FixFlags (n : Int)) = kDxt3 ∧ FixFlags (n : Int) &&& (kDxt3 ||| kDxt5) ≠ 0 ∧
      FixFlags (n : Int) &&& kDxt1 = 0 ∧ FixFlags (n : Int) &&& kDxt3 ≠ 0 ∧
      FixFlags (n : Int) &&& kDxt5 = 0) ∨
    (methodBits (FixFlags (n : Int)) = kDxt5 ∧ FixFlags (n : Int) &&& (kDxt3 ||| kDxt5) ≠ 0 ∧
      FixFlags (n : Int) &&& kDxt1 = 0 ∧ FixFlags (n : Int) &&& kDxt3 = 0 ∧
      FixFlags (n : Int) &&& kDxt5 ≠ 0) := by
  revert n
  decide

/-- The three shapes of the method bits of normalised flags, with the outcome of every bit
test that the compressors make on them. -/
theorem method_cases (flags : Int) :
    (methodBits (FixFlags flags) = kDxt1 ∧ FixFlags flags &&& (kDxt3 ||| kDxt5) = 0 ∧
      FixFlags flags &&& kDxt1 ≠ 0 ∧ FixFlags flags &&& kDxt3 = 0 ∧
      FixFlags flags &&& kDxt5 = 0) ∨
    (methodBits (FixFlags flags) = kDxt3 ∧ FixFlags flags &&& (kDxt3 ||| kDxt5) ≠ 0 ∧
      FixFlags flags &&& kDxt1 = 0 ∧ FixFlags flags &&& kDxt3 ≠ 0 ∧
      FixFlags flags &&& kDxt5 = 0) ∨
    (methodBits (FixFlags flags) = kDxt5 ∧ FixFlags flags &&& (kDxt3 ||| kDxt5) ≠ 0 ∧
      FixFlags flags &&& kDxt1 = 0 ∧ FixFlags flags &&& kDxt3 = 0 ∧
      FixFlags flags &&& kDxt5 ≠ 0) := by
  have hlow := method_cases_low (low9 flags) (low9_lt flags)
  rw [← FixFlags_low9 flags] at hlow
  exact hlow

theorem colourFits_append {T : Type} (xs ys : List (Call T)) :
    colourFits (xs ++ ys) = colourFits xs ++ colourFits ys := by
  induction xs with
  | nil => rfl
  | cons c rest ih => cases c <;> simp [colourFits, ih]

/-- The colour fits that `CompressMasked` runs: exactly one, the one `specFit` names. -/
theorem CompressMasked_colourFits {T : Type} (GetCount : ColourSet T → Nat) (rgba : T)
    (mask block flags : Int) :
    colourFits (CompressMasked GetCount rgba mask block flags)
      = [specFit (GetCount (ColourSet.masked rgba mask (FixFlags flags))) (FixFlags flags)] := by
  have hr := rangeBit_iff flags
  unfold CompressMasked specFit
  simp only [colourFits_append]
  have halpha : colourFits
      (if (FixFlags flags &&& kDxt3) ≠ 0 then [Call.CompressAlphaDxt3 rgba mask block]
       else if (FixFlags flags &&& kDxt5) ≠ 0 then [Call.CompressAlphaDxt5 rgba mask block]
       else []) = [] := by
    split_ifs <;> rfl
  rw [halpha]
  by_cases h1 : GetCount (ColourSet.masked rgba mask (FixFlags flags)) = 1
  · simp [h1, colourFits]
  · by_cases h0 : GetCount (ColourSet.masked rgba mask (FixFlags flags)) = 0
    · simp [h0, colourFits]
    · by_cases hf : fitBits (FixFlags flags) = kColourRangeFit
      · have hb := hr.mpr hf
        simp [h1, h0, hf, hb, colourFits]
      · have hb : ¬ (FixFlags flags &&& kColourRangeFit) ≠ 0 := fun h => hf (hr.mp h)
        simp [h1, h0, hf, hb, colourFits]

/-- C5: `CompressMasked` runs exactly one colour fit, chosen from the point count of the colour
set and the normalised flags alone: `SingleColourFit` iff the count is 1, `RangeFit` iff the
count is not 1 and (the count is 0 or the normalised fit quality is range), `ClusterFit` in
every remaining case; a colour set without points, such as the one of mask 0, gets
`RangeFit`. -/
theorem CompressMasked_selects_fit {T : Type} (GetCount : ColourSet T → Nat) (rgba : T)
    (mask block flags : Int) :
    (colourFits (CompressMasked GetCount rgba mask block flags)
      = [specFit (GetCount (ColourSet.masked rgba mask (FixFlags flags))) (FixFlags flags)]) ∧
    (colourFits (CompressMasked GetCount rgba mask block flags) = [ColourFit.SingleColourFit] ↔
      GetCount (ColourSet.masked rgba mask (FixFlags flags)) = 1) ∧
    (colourFits (CompressMasked GetCount rgba mask block flags) = [ColourFit.RangeFit] ↔
      GetCount (ColourSet.masked rgba mask (FixFlags flags)) ≠ 1 ∧
        (GetCount (ColourSet.masked rgba mask (FixFlags flags)) = 0 ∨
          fitBits (FixFlags flags) = kColourRangeFit)) ∧
    (colourFits (CompressMasked GetCount rgba mask block flags) = [ColourFit.ClusterFit] ↔
      GetCount (ColourSet.masked rgba mask (FixFlags flags)) ≠ 1 ∧
        ¬ (GetCount (ColourSet.masked rgba mask (FixFlags flags)) = 0 ∨
          fitBits (FixFlags flags) = kColourRangeFit)) ∧
    (GetCount (ColourSet.masked rgba mask (FixFlags flags)) = 0 →
      colourFits (CompressMasked GetCount rgba mask block flags) = [ColourFit.RangeFit]) := by
  rw [CompressMasked_colourFits]
  generalize GetCount (ColourSet.masked rgba mask (FixFlags flags)) = n
  unfold specFit
  refine ⟨rfl, ?_, ?_, ?_, ?_⟩
  · by_cases h1 : n = 1
    · simp [h1]
    · simp only [h1, if_false, iff_false]
      split_ifs <;> simp
  · by_cases h1 : n = 1
    · simp [h1]
    · simp only [h1, if_false]
      by_cases h2 : n = 0 ∨ fitBits (FixFlags flags) = kColourRangeFit
      · simp [h1, h2]
      · simp [h1, h2]
  · by_cases h1 : n = 1
    · simp [h1]
    · simp only [h1, if_false]
      by_cases h2 : n = 0 ∨ fitBits (FixFlags flags) = kColourRangeFit
      · simp [h1, h2]
      · simp [h1, h2]
  · intro h0
    simp [h0]

/-- Witness for C5: a tile whose mask is 0 and whose colour set has no point is compressed by
`RangeFit`, also when the caller asked for a cluster fit. -/
theorem CompressMasked_selects_fit_witness :
    colourFits (CompressMasked (fun _ : ColourSet Unit => 0) () 0 0 kColourClusterFit)
      = [ColourFit.RangeFit] :=
  (CompressMasked_selects_fit (fun _ : ColourSet Unit => 0) () 0 0 kColourClusterFit).2.2.2.2 rfl

/-- C6 as stated fails: with two points and a cluster fit requested, `CompressMasked` runs
`ClusterFit`, on a colour set whose count is 2. -/
theorem ClusterFit_count_above_two_counterexample :
    ColourFit.ClusterFit ∈
        colourFits (CompressMasked (fun _ : ColourSet Unit => 2) () 0xffff 0 kColourClusterFit) ∧
      ¬ (2 < (fun _ : ColourSet Unit => 2)
          (ColourSet.masked () 0xffff (FixFlags kColourClusterFit))) := by
  decide

/-- C6, amended: whenever `CompressMasked` runs `ClusterFit` the colour set has at least two
points (never 0 or 1) and the normalised fit quality is not range; whenever `Compress_dxt1`
runs `ClusterFit` the colour set has more than four points. -/
theorem ClusterFit_count_bounds {T : Type} (GetCount : ColourSet T → Nat) (rgba : T)
    (mask block flags : Int) :
    (ColourFit.ClusterFit ∈ colourFits (CompressMasked GetCount rgba mask block flags) →
      2 ≤ GetCount (ColourSet.masked rgba mask (FixFlags flags)) ∧
        fitBits (FixFlags flags) ≠ kColourRangeFit) ∧
    (ColourFit.ClusterFit ∈ colourFits (Compress_dxt1 GetCount rgba block flags) →
      4 < GetCount (ColourSet.full rgba flags)) := by
  constructor
  · rw [CompressMasked_colourFits]
    generalize GetCount (ColourSet.masked rgba mask (FixFlags flags)) = n
    unfold specFit
    intro h
    split_ifs at h with h1 h2
    · simp at h
    · simp at h
    · constructor
      · omega
      · exact fun hf => h2 (Or.inr hf)
  · simp only [Compress_dxt1]
    generalize GetCount (ColourSet.full rgba flags) = n
    intro h
    split_ifs at h with h1 h2 h3
    · simp [colourFits] at h
    · simp [colourFits] at h
    · simp [colourFits] at h
    · omega

/-- Witness for C6 (amended): five points and a cluster fit reach `ClusterFit` in both
dispatchers. -/
theorem ClusterFit_count_bounds_witness :
    (2 ≤ 5 ∧ fitBits (FixFlags kColourClusterFit) ≠ kColourRangeFit) ∧ 4 < 5 :=
  ⟨(ClusterFit_count_bounds (fun _ : ColourSet Unit => 5) () 0xffff 0 kColourClusterFit).1
      (by decide),
   (ClusterFit_count_bounds (fun _ : ColourSet Unit => 5) () 0xffff 0 kColourClusterFit).2
      (by decide)⟩

set_option maxRecDepth 1000000 in
theorem fit_cases_low (n : Nat) (hn : n < 512) :
    fitBits (FixFlags (n : Int)) = kColourRangeFit ∨
    fitBits (FixFlags (n : Int)) = kColourClusterFit ∨
    fitBits (FixFlags (n : Int)) = kColourIterativeClusterFit := by
  revert n
  decide

/-- The fit quality of normalised flags is range, cluster or iterative cluster. -/
theorem fit_cases (flags : Int) :
    fitBits (FixFlags flags) = kColourRangeFit ∨
    fitBits (FixFlags flags) = kColourClusterFit ∨
    fitBits (FixFlags flags) = kColourIterativeClusterFit := by
  have hlow := fit_cases_low (low9 flags) (low9_lt flags)
  rw [← FixFlags_low9 flags] at hlow
  exact hlow

/-- The single call that `Compress_dxt1` makes on normalised flags. -/
theorem Compress_dxt1_eq {T : Type} (GetCount : ColourSet T → Nat) (rgba : T)
    (block flags : Int) :
    Compress_dxt1 GetCount rgba block (FixFlags flags)
      = [Call.Compress3
          (specFit3 (GetCount (ColourSet.full rgba (FixFlags flags))) (FixFlags flags))
          (ColourSet.full rgba (FixFlags flags)) (FixFlags flags) block] := by
  have hr := rangeBit_iff flags
  simp only [Compress_dxt1, specFit3]
  generalize GetCount (ColourSet.full rgba (FixFlags flags)) = n
  by_cases h1 : n = 1
  · simp [h1]
  · by_cases h2 : n = 2
    · simp [h2]
    · by_cases hf : fitBits (FixFlags flags) = kColourRangeFit
      · have hb := hr.mpr hf
        simp [h1, h2, hf, hb]
      · have hb : ¬ (FixFlags flags &&& kColourRangeFit) ≠ 0 := fun h => hf (hr.mp h)
        by_cases h4 : n ≤ 4
        · simp [h1, h2, hf, hb, h4]
        · simp [h1, h2, hf, hb, h4]

/-- C7 as stated fails: with three points and the cluster fit quality, `Compress_dxt1` runs
`RangeFit`, not `ClusterFit`. -/
theorem Compress_dxt1_three_points_counterexample :
    fitBits (FixFlags kColourClusterFit) = kColourClusterFit ∧
    colourFits (Compress_dxt1 (fun _ : ColourSet Unit => 3) () 0 (FixFlags kColourClusterFit))
      = [ColourFit.RangeFit] ∧
    colourFits (Compress_dxt1 (fun _ : ColourSet Unit => 3) () 0 (FixFlags kColourClusterFit))
      ≠ [ColourFit.ClusterFit] := by
  decide

/-- C7, amended: on normalised flags `Compress_dxt1` makes exactly one call, `Compress3` of one
fit on the colour block at the start of the block: the single-colour closed form iff the count
is 1, the two-colour closed form iff it is 2, `RangeFit` iff the count is neither and (the fit
quality is range or the count is at most 4, that is 0, 3 or 4), and `ClusterFit` iff the count
exceeds 4 and the fit quality is cluster or iterative cluster. -/
theorem Compress_dxt1_selects_fit {T : Type} (GetCount : ColourSet T → Nat) (rgba : T)
    (block flags : Int) :
    (Compress_dxt1 GetCount rgba block (FixFlags flags)
      = [Call.Compress3
          (specFit3 (GetCount (ColourSet.full rgba (FixFlags flags))) (FixFlags flags))
          (ColourSet.full rgba (FixFlags flags)) (FixFlags flags) block]) ∧
    (colourFits (Compress_dxt1 GetCount rgba block (FixFlags flags))
        = [ColourFit.SingleColourFitFast] ↔
      GetCount (ColourSet.full rgba (FixFlags flags)) = 1) ∧
    (colourFits (Compress_dxt1 GetCount rgba block (FixFlags flags))
        = [ColourFit.TwoColourFitFast] ↔
      GetCount (ColourSet.full rgba (FixFlags flags)) = 2) ∧
    (colourFits (Compress_dxt1 GetCount rgba block (FixFlags flags)) = [ColourFit.RangeFit] ↔
      GetCount (ColourSet.full rgba (FixFlags flags)) ≠ 1 ∧
      GetCount (ColourSet.full rgba (FixFlags flags)) ≠ 2 ∧
        (fitBits (FixFlags flags) = kColourRangeFit ∨
          GetCount (ColourSet.full rgba (FixFlags flags)) ≤ 4)) ∧
    (colourFits (Compress_dxt1 GetCount rgba block (FixFlags flags)) = [ColourFit.ClusterFit] ↔
      4 < GetCount (ColourSet.full rgba (FixFlags flags)) ∧
        (fitBits (FixFlags flags) = kColourClusterFit ∨
          fitBits (FixFlags flags) = kColourIterativeClusterFit)) := by
  have hcases := fit_cases flags
  have hne1 : kColourRangeFit ≠ kColourClusterFit := by decide
  have hne2 : kColourRangeFit ≠ kColourIterativeClusterFit := by decide
  rw [Compress_dxt1_eq]
  refine ⟨rfl, ?_⟩
  simp only [colourFits, specFit3]
  generalize GetCount (ColourSet.full rgba (FixFlags flags)) = n
  generalize fitBits (FixFlags flags) = q at hcases ⊢
  refine ⟨?_, ?_, ?_, ?_⟩
  all_goals
    by_cases h1 : n = 1
    · subst h1
      simp
    · by_cases h2 : n = 2
      · subst h2
        simp
      · by_cases hf : q = kColourRangeFit
        · subst hf
          simp [h1, h2, hne1, hne2]
        · have hq : q = kColourClusterFit ∨ q = kColourIterativeClusterFit := by
            rcases hcases with h | h | h
            · exact absurd h hf
            · exact Or.inl h
            · exact Or.inr h
          by_cases h4 : n ≤ 4
          · have h4n : ¬ 4 < n := by omega
            simp [h1, h2, hf, h4, h4n]
          · have h4n : 4 < n := by omega
            simp [h1, h2, hf, h4, h4n, hq]

/-- C8: the block layout is the same on both sides.  With normalised method `kDxt1` the colour
block starts at the start of the block in `CompressMasked` and in `Decompress`, no alpha codec
runs, and the colour decoder runs in its DXT1 mode; with `kDxt3` (resp. `kDxt5`) the colour
block starts 8 bytes into the block and the alpha block at its start on both sides, only the
explicit (resp. interpolated) alpha codec runs, and the colour decoder runs in non-DXT1 mode.
The normalised method is always one of the three. -/
theorem block_layout_shared {T : Type} (GetCount : ColourSet T → Nat) (rgba : T)
    (mask block flags : Int) :
    (methodBits (FixFlags flags) = kDxt1 ∨ methodBits (FixFlags flags) = kDxt3 ∨
      methodBits (FixFlags flags) = kDxt5) ∧
    (methodBits (FixFlags flags) = kDxt1 →
      CompressMasked GetCount rgba mask block flags
        = [Call.Compress
            (specFit (GetCount (ColourSet.masked rgba mask (FixFlags flags))) (FixFlags flags))
            (ColourSet.masked rgba mask (FixFlags flags)) (FixFlags flags) block] ∧
      Decompress block flags = [DecodeCall.DecompressColour block true]) ∧
    (methodBits (FixFlags flags) = kDxt3 →
      CompressMasked GetCount rgba mask block flags
        = [Call.Compress
            (specFit (GetCount (ColourSet.masked rgba mask (FixFlags flags))) (FixFlags flags))
            (ColourSet.masked rgba mask (FixFlags flags)) (FixFlags flags) (block + 8),
           Call.CompressAlphaDxt3 rgba mask block] ∧
      Decompress block flags
        = [DecodeCall.DecompressColour (block + 8) false,
           DecodeCall.DecompressAlphaDxt3 block]) ∧
    (methodBits (FixFlags flags) = kDxt5 →
      CompressMasked GetCount rgba mask block flags
        = [Call.Compress
            (specFit (GetCount (ColourSet.masked rgba mask (FixFlags flags))) (FixFlags flags))
            (ColourSet.masked rgba mask (FixFlags flags)) (FixFlags flags) (block + 8),
           Call.CompressAlphaDxt5 rgba mask block] ∧
      Decompress block flags
        = [DecodeCall.DecompressColour (block + 8) false,
           DecodeCall.DecompressAlphaDxt5 block]) := by
  have hr := rangeBit_iff flags
  have hfit : ∀ c : Int,
      (if GetCount (ColourSet.masked rgba mask (FixFlags flags)) = 1 then
        [Call.Compress ColourFit.SingleColourFit
          (ColourSet.masked rgba mask (FixFlags flags)) (FixFlags flags) c]
      else if (FixFlags flags &&& kColourRangeFit) ≠ 0 ∨
          GetCount (ColourSet.masked rgba mask (FixFlags flags)) = 0 then
        [Call.Compress ColourFit.RangeFit
          (ColourSet.masked rgba mask (FixFlags flags)) (FixFlags flags) c]
      else
        [Call.Compress ColourFit.ClusterFit
          (ColourSet.masked rgba mask (FixFlags flags)) (FixFlags flags) c])
      = [Call.Compress
          (specFit (GetCount (ColourSet.masked rgba mask (FixFlags flags))) (FixFlags flags))
          (ColourSet.masked rgba mask (FixFlags flags)) (FixFlags flags) c] := by
    intro c
    unfold specFit
    by_cases h1 : GetCount (ColourSet.masked rgba mask (FixFlags flags)) = 1
    · simp [h1]
    · by_cases h0 : GetCount (ColourSet.masked rgba mask (FixFlags flags)) = 0
      · simp [h0]
      · by_cases hf : fitBits (FixFlags flags) = kColourRangeFit
        · have hb := hr.mpr hf
          simp [h1, h0, hf, hb]
        · have hb : ¬ (FixFlags flags &&& kColourRangeFit) ≠ 0 := fun h => hf (hr.mp h)
          simp [h1, h0, hf, hb]
  have h13 : kDxt1 ≠ kDxt3 := by decide
  have h15 : kDxt1 ≠ kDxt5 := by decide
  have h35 : kDxt3 ≠ kDxt5 := by decide
  simp only [CompressMasked, Decompress, hfit]
  rcases method_cases flags with ⟨hm, h6, hb1, hb3, hb5⟩ | ⟨hm, h6, hb1, hb3, hb5⟩ |
    ⟨hm, h6, hb1, hb3, hb5⟩
  · refine ⟨Or.inl hm, ?_, ?_, ?_⟩
    · intro _
      simp [h6, hb1, hb3, hb5]
    · intro h
      rw [hm] at h
      exact absurd h h13
    · intro h
      rw [hm] at h
      exact absurd h h15
  · refine ⟨Or.inr (Or.inl hm), ?_, ?_, ?_⟩
    · intro h
      rw [hm] at h
      exact absurd h.symm h13
    · intro _
      simp [h6, hb1, hb3]
    · intro h
      rw [hm] at h
      exact absurd h h35
  · refine ⟨Or.inr (Or.inr hm), ?_, ?_, ?_⟩
    · intro h
      rw [hm] at h
      exact absurd h.symm h15
    · intro h
      rw [hm] at h
      exact absurd h.symm h35
    · intro _
      simp [h6, hb1, hb3, hb5]

/-- Witness for C8: flags 0 normalise to method `kDxt1`, flags `kDxt3` and `kDxt5` to
themselves, and the layouts are the ones stated. -/
theorem block_layout_shared_witness :
    (CompressMasked (fun _ : ColourSet Unit => 5) () 0xffff 0 0
        = [Call.Compress
            (specFit ((fun _ : ColourSet Unit => 5) (ColourSet.masked () 0xffff (FixFlags 0)))
              (FixFlags 0))
            (ColourSet.masked () 0xffff (FixFlags 0)) (FixFlags 0) 0] ∧
      Decompress 0 0 = [DecodeCall.DecompressColour 0 true]) ∧
    (CompressMasked (fun _ : ColourSet Unit => 5) () 0xffff 0 kDxt3
        = [Call.Compress
            (specFit ((fun _ : ColourSet Unit => 5) (ColourSet.masked () 0xffff (FixFlags kDxt3)))
              (FixFlags kDxt3))
            (ColourSet.masked () 0xffff (FixFlags kDxt3)) (FixFlags kDxt3) (0 + 8),
           Call.CompressAlphaDxt3 () 0xffff 0] ∧
      Decompress 0 kDxt3
        = [DecodeCall.DecompressColour (0 + 8) false, DecodeCall.DecompressAlphaDxt3 0]) ∧
    (CompressMasked (fun _ : ColourSet Unit => 5) () 0xffff 0 kDxt5
        = [Call.Compress
            (specFit ((fun _ : ColourSet Unit => 5) (ColourSet.masked () 0xffff (FixFlags kDxt5)))
              (FixFlags kDxt5))
            (ColourSet.masked () 0xffff (FixFlags kDxt5)) (FixFlags kDxt5) (0 + 8),
           Call.CompressAlphaDxt5 () 0xffff 0] ∧
      Decompress 0 kDxt5
        = [DecodeCall.DecompressColour (0 + 8) false, DecodeCall.DecompressAlphaDxt5 0]) :=
  ⟨(block_layout_shared (fun _ : ColourSet Unit => 5) () 0xffff 0 0).2.1 (by decide),
   (block_layout_shared (fun _ : ColourSet Unit => 5) () 0xffff 0 kDxt3).2.2.1 (by decide),
   (block_layout_shared (fun _ : ColourSet Unit => 5) () 0xffff 0 kDxt5).2.2.2 (by decide)⟩

/-! ### Image tiling -/

theorem stepsLeft_of_lt (width x : Int) (h : x < width) :
    stepsLeft width x = stepsLeft width (x + 4) + 1 := by
  unfold stepsLeft
  omega

theorem stepsLeft_of_not_lt (width x : Int) (h : ¬ x < width) : stepsLeft width x = 0 := by
  unfold stepsLeft
  omega

theorem stepsLeft_le (width x : Int) (hx : 0 ≤ x) : stepsLeft width x ≤ width.toNat := by
  unfold stepsLeft
  omega

theorem stepsLeft_zero_eq_ceil (width : Int) (hw : 0 ≤ width) :
    (stepsLeft width 0 : Int) = ⌈(width : ℚ) / 4⌉ := by
  rw [ceil_div_four width hw, Int.tdiv_eq_ediv (by omega) (by decide)]
  unfold stepsLeft
  omega

theorem CompressImage.tiles_eq (rgba : Int → Nat) (width height flags bpb y : Int) :
    ∀ (fuel : Nat) (x tb : Int) (calls : List TileCall), stepsLeft width x < fuel →
      CompressImage.tiles rgba width height flags bpb y fuel x tb calls
        = some (tb + stepsLeft width x * bpb,
            calls ++ CompressImage.rowCalls rgba width height flags bpb y
              (stepsLeft width x) x tb) := by
  intro fuel
  induction fuel with
  | zero => intro x tb calls h; omega
  | succ fuel ih =>
    intro x tb calls h
    unfold CompressImage.tiles
    by_cases hx : x < width
    · have hs := stepsLeft_of_lt width x hx
      simp only [hx, if_true]
      rw [ih (x + 4) (tb + bpb) _ (by omega), hs]
      simp only [CompressImage.rowCalls, CompressImage.callAt, List.append_assoc,
        List.singleton_append]
      congr 2
      push_cast
      ring
    · have hs := stepsLeft_of_not_lt width x hx
      simp [hx, hs, CompressImage.rowCalls]

theorem CompressImage.rows_eq (rgba : Int → Nat) (width height flags bpb : Int) :
    ∀ (fuel : Nat) (y tb : Int) (calls : List TileCall), stepsLeft height y < fuel →
      CompressImage.rows rgba width height flags bpb fuel y tb calls
        = some (tb + stepsLeft height y * (stepsLeft width 0 * bpb),
            calls ++ CompressImage.imageCalls rgba width height flags bpb
              (stepsLeft width 0) (stepsLeft height y) y tb) := by
  intro fuel
  induction fuel with
  | zero => intro y tb calls h; omega
  | succ fuel ih =>
    intro y tb calls h
    unfold CompressImage.rows
    by_cases hy : y < height
    · have hs := stepsLeft_of_lt height y hy
      have hfuel : stepsLeft width 0 < width.toNat + 1 := by
        have := stepsLeft_le width 0 (le_refl 0)
        omega
      simp only [hy, if_true]
      rw [CompressImage.tiles_eq rgba width height flags bpb y _ 0 tb calls hfuel]
      simp only []
      rw [ih (y + 4) _ _ (by omega), hs]
      simp only [CompressImage.imageCalls, List.append_assoc]
      congr 2
      push_cast
      ring
    · have hs := stepsLeft_of_not_lt height y hy
      simp [hy, hs, CompressImage.imageCalls]

theorem CompressImage.rowCalls_length (rgba : Int → Nat) (width height flags bpb y : Int) :
    ∀ (n : Nat) (x tb : Int),
      (CompressImage.rowCalls rgba width height flags bpb y n x tb).length = n := by
  intro n
  induction n with
  | zero => intro x tb; rfl
  | succ n ih => intro x tb; simp [CompressImage.rowCalls, ih]

theorem CompressImage.rowCalls_get (rgba : Int → Nat) (width height flags bpb y : Int) :
    ∀ (n : Nat) (x tb : Int) (j : Nat), j < n →
      (CompressImage.rowCalls rgba width height flags bpb y n x tb)[j]?
        = some (CompressImage.callAt rgba width height flags (x + 4 * j) y (tb + j * bpb)) := by
  intro n
  induction n with
  | zero => intro x tb j h; omega
  | succ n ih =>
    intro x tb j h
    cases j with
    | zero => simp [CompressImage.rowCalls]
    | succ j =>
      simp only [CompressImage.rowCalls, List.getElem?_cons_succ]
      rw [ih (x + 4) (tb + bpb) j (by omega)]
      congr 2
      · push_cast; ring
      · push_cast; ring

theorem CompressImage.imageCalls_length (rgba : Int → Nat) (width height flags bpb : Int)
    (cw : Nat) :
    ∀ (m : Nat) (y tb : Int),
      (CompressImage.imageCalls rgba width height flags bpb cw m y tb).length = m * cw := by
  intro m
  induction m with
  | zero => intro y tb; simp [CompressImage.imageCalls]
  | succ m ih =>
    intro y tb
    simp only [CompressImage.imageCalls, List.length_append, ih,
      CompressImage.rowCalls_length]
    ring

theorem CompressImage.imageCalls_get (rgba : Int → Nat) (width height flags bpb : Int)
    (cw : Nat) :
    ∀ (m : Nat) (y tb : Int) (i j : Nat), i < m → j < cw →
      (CompressImage.imageCalls rgba width height flags bpb cw m y tb)[i * cw + j]?
        = some (CompressImage.callAt rgba width height flags (4 * j) (y + 4 * i)
            (tb + ((i * cw + j : Nat) : Int) * bpb)) := by
  intro m
  induction m with
  | zero => intro y tb i j h; omega
  | succ m ih =>
    intro y tb i j hi hj
    simp only [CompressImage.imageCalls]
    cases i with
    | zero =>
      rw [List.getElem?_append_left (by simp [CompressImage.rowCalls_length]; omega)]
      simp only [Nat.zero_mul, Nat.zero_add]
      rw [CompressImage.rowCalls_get _ _ _ _ _ _ cw 0 tb j hj]
      simp
    | succ i =>
      have hidx : (i + 1) * cw + j = cw + (i * cw + j) := by ring
      rw [hidx, List.getElem?_append_right (by simp [CompressImage.rowCalls_length])]
      simp only [CompressImage.rowCalls_length, Nat.add_sub_cancel_left]
      rw [ih (y + 4) _ i j (by omega) hj]
      congr 2
      · push_cast; ring
      · push_cast; ring

/-- The result of `CompressImage`: the loops never run out of fuel, and the calls are those
of `imageCalls` for all the tile rows. -/
theorem CompressImage_eq (rgba : Int → Nat) (width height flags : Int) :
    CompressImage rgba width height flags
      = some
          ((stepsLeft height 0 : Int) *
              (stepsLeft width 0 * (if (FixFlags flags &&& kDxt1) ≠ 0 then 8 else 16)),
            CompressImage.imageCalls rgba width height (FixFlags flags)
              (if (FixFlags flags &&& kDxt1) ≠ 0 then 8 else 16)
              (stepsLeft width 0) (stepsLeft height 0) 0 0) := by
  have hfuel : stepsLeft height 0 < height.toNat + 1 := by
    have := stepsLeft_le height 0 (le_refl 0)
    omega
  simp only [CompressImage]
  rw [CompressImage.rows_eq rgba width height (FixFlags flags) _ _ 0 0 [] hfuel]
  simp

theorem int_lor_def (a b : Int) : a ||| b = Int.lor a b := rfl

theorem testBit_one_shiftLeft (s k : Nat) :
    Int.testBit ((1 : Int) <<< (s : Int)) k = decide (s = k) := by
  rw [Int.one_shiftLeft]
  show Nat.testBit (2 ^ s) k = decide (s = k)
  exact Nat.testBit_two_pow

theorem CompressImage.TileInv_zero (rgba : Int → Nat) (width height x y : Int) :
    CompressImage.TileInv rgba width height x y 0 ([], 0) := by
  refine ⟨rfl, ?_, ?_⟩
  · intro t i ht
    omega
  · intro k
    show Nat.testBit 0 k = _
    simp

theorem CompressImage.TileInv_step (rgba : Int → Nat) (width height x y : Int) (s : Nat)
    (py px : Int) (hpy : py = ((s / 4 : Nat) : Int)) (hpx : px = ((s % 4 : Nat) : Int))
    (st : List (Option Nat) × Int) (h : CompressImage.TileInv rgba width height x y s st) :
    CompressImage.TileInv rgba width height x y (s + 1)
      (CompressImage.pixel rgba width height x y py px st) := by
  obtain ⟨hlen, hbytes, hmask⟩ := h
  have hs : 4 * py + px = (s : Int) := by
    subst hpy hpx
    omega
  unfold CompressImage.pixel
  by_cases hc : x + px < width ∧ y + py < height
  · have hin : inImage width height x y s = true := by
      unfold inImage
      rw [← hpy, ← hpx]
      exact decide_eq_true hc
    simp only [hc, and_self, if_true]
    refine ⟨?_, ?_, ?_⟩
    · simp [hlen]
      omega
    · intro t i ht hi hint
      by_cases hts : t < s
      · rw [List.getElem?_append_left (by omega)]
        exact hbytes t i hts hi hint
      · have hteq : t = s := by omega
        subst hteq
        rw [List.getElem?_append_right (by omega), hlen, ← hpy, ← hpx]
        have hidx : 4 * t + i - 4 * t = i := by omega
        rw [hidx]
        have hi4 : i = 0 ∨ i = 1 ∨ i = 2 ∨ i = 3 := by omega
        rcases hi4 with h0 | h0 | h0 | h0 <;> subst h0 <;> simp
    · intro k
      rw [hs, int_lor_def, Int.testBit_lor, hmask k, testBit_one_shiftLeft]
      by_cases hks : k < s
      · have hne : ¬ s = k := by omega
        have hk1 : k < s + 1 := by omega
        simp [hks, hne, hk1]
      · by_cases hke : s = k
        · subst hke
          simp [hin]
        · have hk1 : ¬ k < s + 1 := by omega
          simp [hks, hke, hk1]
  · have hin : inImage width height x y s = false := by
      unfold inImage
      rw [← hpy, ← hpx]
      exact decide_eq_false hc
    simp only [hc, if_false]
    refine ⟨?_, ?_, ?_⟩
    · simp [hlen]
      omega
    · intro t i ht hi hint
      have hts : t < s := by
        rcases Nat.lt_succ_iff_lt_or_eq.mp ht with h1 | h1
        · exact h1
        · subst h1
          rw [hin] at hint
          exact absurd hint (by decide)
      rw [List.getElem?_append_left (by omega)]
      exact hbytes t i hts hi hint
    · intro k
      rw [hmask k]
      by_cases hks : k < s
      · have hk1 : k < s + 1 := by omega
        simp [hks, hk1]
      · by_cases hke : s = k
        · subst hke
          simp [hin]
        · have hk1 : ¬ k < s + 1 := by omega
          simp [hks, hk1]

theorem CompressImage.buildTile_inv (rgba : Int → Nat) (width height x y : Int) :
    CompressImage.TileInv rgba width height x y 16
      (CompressImage.buildTile rgba width height x y) := by
  have h0 := CompressImage.TileInv_zero rgba width height x y
  have h1 := CompressImage.TileInv_step rgba width height x y 0 0 0 (by decide) (by decide) _ h0
  have h2 := CompressImage.TileInv_step rgba width height x y 1 0 1 (by decide) (by decide) _ h1
  have h3 := CompressImage.TileInv_step rgba width height x y 2 0 2 (by decide) (by decide) _ h2
  have h4 := CompressImage.TileInv_step rgba width height x y 3 0 3 (by decide) (by decide) _ h3
  have h5 := CompressImage.TileInv_step rgba width height x y 4 1 0 (by decide) (by decide) _ h4
  have h6 := CompressImage.TileInv_step rgba width height x y 5 1 1 (by decide) (by decide) _ h5
  have h7 := CompressImage.TileInv_step rgba width height x y 6 1 2 (by decide) (by decide) _ h6
  have h8 := CompressImage.TileInv_step rgba width height x y 7 1 3 (by decide) (by decide) _ h7
  have h9 := CompressImage.TileInv_step rgba width height x y 8 2 0 (by decide) (by decide) _ h8
  have h10 := CompressImage.TileInv_step rgba width height x y 9 2 1 (by decide) (by decide) _ h9
  have h11 :=
    CompressImage.TileInv_step rgba width height x y 10 2 2 (by decide) (by decide) _ h10
  have h12 :=
    CompressImage.TileInv_step rgba width height x y 11 2 3 (by decide) (by decide) _ h11
  have h13 :=
    CompressImage.TileInv_step rgba width height x y 12 3 0 (by decide) (by decide) _ h12
  have h14 :=
    CompressImage.TileInv_step rgba width height x y 13 3 1 (by decide) (by decide) _ h13
  have h15 :=
    CompressImage.TileInv_step rgba width height x y 14 3 2 (by decide) (by decide) _ h14
  have h16 :=
    CompressImage.TileInv_step rgba width height x y 15 3 3 (by decide) (by decide) _ h15
  exact h16

theorem CompressImage.mem_imageCalls (rgba : Int → Nat) (width height flags bpb : Int)
    (cw m : Nat) (y tb : Int) (c : TileCall)
    (hc : c ∈ CompressImage.imageCalls rgba width height flags bpb cw m y tb) :
    ∃ i j : Nat, i < m ∧ j < cw ∧
      c = CompressImage.callAt rgba width height flags (4 * j) (y + 4 * i)
        (tb + ((i * cw + j : Nat) : Int) * bpb) := by
  obtain ⟨k, hk⟩ := List.mem_iff_getElem?.mp hc
  have hlt : k < m * cw := by
    have hlen := CompressImage.imageCalls_length rgba width height flags bpb cw m y tb
    rcases Nat.lt_or_ge k (m * cw) with h | h
    · exact h
    · rw [List.getElem?_eq_none (by omega)] at hk
      exact absurd hk (by simp)
  have hcw : 0 < cw := by
    rcases Nat.eq_zero_or_pos cw with h | h
    · subst h
      simp at hlt
    · exact h
  have hi : k / cw < m := by
    rw [Nat.div_lt_iff_lt_mul hcw]
    exact hlt
  have hj : k % cw < cw := Nat.mod_lt _ hcw
  have hidx : k = k / cw * cw + k % cw := by
    rw [Nat.mul_comm]
    exact (Nat.div_add_mod k cw).symm
  refine ⟨k / cw, k % cw, hi, hj, ?_⟩
  have hget := CompressImage.imageCalls_get rgba width height flags bpb cw m y tb
    (k / cw) (k % cw) hi hj
  rw [← hidx, hk] at hget
  rw [← hidx]
  exact Option.some.inj hget

theorem stepsLeft_lt_iff (width : Int) (j : Nat) (h : j < stepsLeft width 0) :
    4 * (j : Int) < width := by
  unfold stepsLeft at h
  omega

/-- C10: `CompressImage` returns, and for every call of `CompressMasked` that it makes, with
tile origin `(x, y)`: the origin lies in the image; for `px, py` in `0..3` bit `4*py + px` of
the mask is set iff `x + px < width` and `y + py < height`; no bit from bit 16 on is set; for
every set bit the four bytes of slot `4*py + px` of the tile are the four bytes of source
pixel `(x + px, y + py)`; and the mask is not 0, its bit 0 being set. -/
theorem CompressImage_tile_masks (rgba : Int → Nat) (width height flags : Int) :
    ∃ r : Int × List TileCall, CompressImage rgba width height flags = some r ∧
      ∀ c ∈ r.2,
        (0 ≤ c.x ∧ c.x < width ∧ 0 ≤ c.y ∧ c.y < height) ∧
        (∀ px py : Nat, px < 4 → py < 4 →
          (Int.testBit c.mask (4 * py + px) = true ↔
            c.x + (px : Int) < width ∧ c.y + (py : Int) < height)) ∧
        (∀ k : Nat, 16 ≤ k → Int.testBit c.mask k = false) ∧
        (∀ px py i : Nat, px < 4 → py < 4 → i < 4 →
          Int.testBit c.mask (4 * py + px) = true →
          c.sourceRgba[4 * (4 * py + px) + i]?
            = some (some (rgba (4 * (width * (c.y + (py : Int)) + (c.x + (px : Int)))
                + (i : Int))))) ∧
        c.mask ≠ 0 ∧ Int.testBit c.mask 0 = true := by
  refine ⟨_, CompressImage_eq rgba width height flags, ?_⟩
  intro c hc
  obtain ⟨i, j, hi, hj, rfl⟩ := CompressImage.mem_imageCalls _ _ _ _ _ _ _ _ _ c hc
  have hx := stepsLeft_lt_iff width j hj
  have hy := stepsLeft_lt_iff height i hi
  obtain ⟨_, hbytes, hmask⟩ :=
    CompressImage.buildTile_inv rgba width height (4 * (j : Int)) (0 + 4 * (i : Int))
  have hslot : ∀ px py : Nat, px < 4 → py < 4 →
      (4 * py + px) % 4 = px ∧ (4 * py + px) / 4 = py ∧ 4 * py + px < 16 := by
    intro px py hpx hpy
    omega
  have hbit : ∀ px py : Nat, px < 4 → py < 4 →
      (Int.testBit (CompressImage.buildTile rgba width height (4 * (j : Int))
          (0 + 4 * (i : Int))).2 (4 * py + px) = true ↔
        4 * (j : Int) + (px : Int) < width ∧ 0 + 4 * (i : Int) + (py : Int) < height) := by
    intro px py hpx hpy
    obtain ⟨h1, h2, h3⟩ := hslot px py hpx hpy
    rw [hmask, inImage, h1, h2]
    simp [h3]
  have hbit0 : Int.testBit (CompressImage.buildTile rgba width height (4 * (j : Int))
      (0 + 4 * (i : Int))).2 0 = true := by
    have h := (hbit 0 0 (by decide) (by decide)).mpr ⟨by simpa using hx, by simpa using hy⟩
    simpa using h
  simp only [CompressImage.callAt]
  refine ⟨⟨by omega, hx, by omega, by omega⟩, hbit, ?_, ?_, ?_, hbit0⟩
  · intro k hk
    rw [hmask]
    have hk16 : ¬ k < 16 := by omega
    simp [hk16]
  · intro px py b hpx hpy hb4 hset
    obtain ⟨h1, h2, h3⟩ := hslot px py hpx hpy
    have hin : inImage width height (4 * (j : Int)) (0 + 4 * (i : Int)) (4 * py + px)
        = true := by
      rw [hmask] at hset
      simpa [h3] using hset
    have h := hbytes (4 * py + px) b h3 hb4 hin
    rw [h1, h2] at h
    exact h
  · intro h0
    rw [h0] at hbit0
    exact absurd hbit0 (by decide)

/-- The calls that `CompressImage` makes on a 5 x 5 image with flags 0: four tiles, the
masks of the full tile, of the right edge, of the bottom edge and of the corner. -/
theorem CompressImage_five_by_five :
    (CompressImage (fun i => i.toNat % 256) 5 5 0).map
        (fun r => (r.1, r.2.map (fun c => (c.x, c.y, c.mask, c.targetBlock))))
      = some (32, [(0, 0, 0xffff, 0), (4, 0, 0x1111, 8), (0, 4, 0x000f, 16), (4, 4, 0x0001, 24)]) := by
  decide

/-! ### The other image functions: theorems -/

theorem FixFlags_idem (flags : Int) : FixFlags (FixFlags flags) = FixFlags flags := by
  rw [FixFlags_low9 flags]
  exact FixFlags_idem_low _ (low9_lt flags)

theorem CompressMasked_FixFlags {T : Type} (GetCount : ColourSet T → Nat) (rgba : T)
    (mask block flags : Int) :
    CompressMasked GetCount rgba mask block (FixFlags flags)
      = CompressMasked GetCount rgba mask block flags := by
  simp only [CompressMasked, FixFlags_idem]

theorem CompressImage.pixel_of_in (rgba : Int → Nat) (width height x y py px : Int)
    (st : List (Option Nat) × Int) (hx : x + px < width) (hy : y + py < height) :
    CompressImage.pixel rgba width height x y py px st
      = (st.1 ++ ([0, 1, 2, 3] : List Int).map
            (fun i => some (rgba (4 * (width * (y + py) + (x + px)) + i))),
          st.2 ||| ((1 : Int) <<< (4 * py + px))) := by
  simp [CompressImage.pixel, hx, hy]

theorem CompressImage.buildTile_mask_full (rgba : Int → Nat) (width height x y : Int)
    (hx : x + 3 < width) (hy : y + 3 < height) :
    (CompressImage.buildTile rgba width height x y).2 = 0xffff := by
  simp only [CompressImage.buildTile, List.foldl]
  rw [CompressImage.pixel_of_in _ _ _ _ _ 3 3 _ (by omega) (by omega),
    CompressImage.pixel_of_in _ _ _ _ _ 3 2 _ (by omega) (by omega),
    CompressImage.pixel_of_in _ _ _ _ _ 3 1 _ (by omega) (by omega),
    CompressImage.pixel_of_in _ _ _ _ _ 3 0 _ (by omega) (by omega),
    CompressImage.pixel_of_in _ _ _ _ _ 2 3 _ (by omega) (by omega),
    CompressImage.pixel_of_in _ _ _ _ _ 2 2 _ (by omega) (by omega),
    CompressImage.pixel_of_in _ _ _ _ _ 2 1 _ (by omega) (by omega),
    CompressImage.pixel_of_in _ _ _ _ _ 2 0 _ (by omega) (by omega),
    CompressImage.pixel_of_in _ _ _ _ _ 1 3 _ (by omega) (by omega),
    CompressImage.pixel_of_in _ _ _ _ _ 1 2 _ (by omega) (by omega),
    CompressImage.pixel_of_in _ _ _ _ _ 1 1 _ (by omega) (by omega),
    CompressImage.pixel_of_in _ _ _ _ _ 1 0 _ (by omega) (by omega),
    CompressImage.pixel_of_in _ _ _ _ _ 0 3 _ (by omega) (by omega),
    CompressImage.pixel_of_in _ _ _ _ _ 0 2 _ (by omega) (by omega),
    CompressImage.pixel_of_in _ _ _ _ _ 0 1 _ (by omega) (by omega),
    CompressImage.pixel_of_in _ _ _ _ _ 0 0 _ (by omega) (by omega)]
  rfl

/-- C11: `Compress` is `CompressMasked` with mask `0xffff`; and on an image whose width and
height are positive multiples of 4 every call that `CompressImage` makes has mask `0xffff`,
a tile made of the 16 source pixels at its origin, and makes the same calls into the fits and
alpha codecs, on the same block, as `Compress` on that tile with the caller's flags. -/
theorem CompressImage_agrees_with_Compress (GetCount : ColourSet (List (Option Nat)) → Nat)
    (rgba : Int → Nat) (width height flags : Int) (hw : 0 < width) (hw4 : width % 4 = 0)
    (hh : 0 < height) (hh4 : height % 4 = 0) :
    (∀ (tile : List (Option Nat)) (block : Int),
      Compress GetCount tile block flags = CompressMasked GetCount tile 0xffff block flags) ∧
    ∃ r : Int × List TileCall, CompressImage rgba width height flags = some r ∧
      r.2 ≠ [] ∧
      ∀ c ∈ r.2,
        c.mask = 0xffff ∧ c.flags = FixFlags flags ∧
        (∀ j : Nat, j < 64 →
          c.sourceRgba[j]?
            = some (some (rgba (4 * (width * (c.y + ((j / 16 : Nat) : Int))
                + (c.x + ((j / 4 % 4 : Nat) : Int))) + ((j % 4 : Nat) : Int))))) ∧
        CompressMasked GetCount c.sourceRgba c.mask c.targetBlock c.flags
          = Compress GetCount c.sourceRgba c.targetBlock flags := by
  refine ⟨fun _ _ => rfl, _, CompressImage_eq rgba width height flags, ?_, ?_⟩
  · have hlen := CompressImage.imageCalls_length rgba width height (FixFlags flags)
      (if (FixFlags flags &&& kDxt1) ≠ 0 then 8 else 16) (stepsLeft width 0)
      (stepsLeft height 0) 0 0
    have h1 : 0 < stepsLeft width 0 := by
      unfold stepsLeft
      omega
    have h2 : 0 < stepsLeft height 0 := by
      unfold stepsLeft
      omega
    intro hnil
    simp only [] at hnil
    rw [hnil] at hlen
    have hpos := Nat.mul_pos h2 h1
    simp at hlen
    omega
  · intro c hc
    obtain ⟨i, j, hi, hj, rfl⟩ := CompressImage.mem_imageCalls _ _ _ _ _ _ _ _ _ c hc
    have hx := stepsLeft_lt_iff width j hj
    have hy := stepsLeft_lt_iff height i hi
    have hfull := CompressImage.buildTile_mask_full rgba width height (4 * (j : Int))
      (0 + 4 * (i : Int)) (by omega) (by omega)
    obtain ⟨_, hbytes, _⟩ :=
      CompressImage.buildTile_inv rgba width height (4 * (j : Int)) (0 + 4 * (i : Int))
    simp only [CompressImage.callAt]
    refine ⟨hfull, trivial, ?_, ?_⟩
    · intro k hk
      have hin : inImage width height (4 * (j : Int)) (0 + 4 * (i : Int)) (k / 4) = true := by
        unfold inImage
        apply decide_eq_true
        constructor <;> omega
      have h := hbytes (k / 4) (k % 4) (by omega) (by omega) hin
      have hidx : 4 * (k / 4) + k % 4 = k := by omega
      have h16 : k / 4 / 4 = k / 16 := by omega
      rw [hidx, h16] at h
      exact h
    · rw [hfull, CompressMasked_FixFlags]
      rfl

/-- Witness for C11: an 8 x 4 image. -/
theorem CompressImage_agrees_with_Compress_witness :
    ((0 : Int) < 8 ∧ (8 : Int) % 4 = 0 ∧ (0 : Int) < 4 ∧ (4 : Int) % 4 = 0) ∧
    ∃ r : Int × List TileCall, CompressImage (fun i => i.toNat % 256) 8 4 kDxt5 = some r ∧
      r.2 ≠ [] ∧
      ∀ c ∈ r.2,
        c.mask = 0xffff ∧ c.flags = FixFlags kDxt5 ∧
        (∀ j : Nat, j < 64 →
          c.sourceRgba[j]?
            = some (some ((fun i : Int => i.toNat % 256) (4 * (8 * (c.y + ((j / 16 : Nat) : Int))
                + (c.x + ((j / 4 % 4 : Nat) : Int))) + ((j % 4 : Nat) : Int))))) ∧
        CompressMasked (fun _ => 5) c.sourceRgba c.mask c.targetBlock c.flags
          = Compress (fun _ => 5) c.sourceRgba c.targetBlock kDxt5 :=
  ⟨by decide,
    (CompressImage_agrees_with_Compress (fun _ => 5) (fun i => i.toNat % 256) 8 4 kDxt5
      (by decide) (by decide) (by decide) (by decide)).2⟩

theorem opaqueRGBA_colour (rgb : Int → Nat) (p k : Int) (hk0 : 0 ≤ k) (hk : k < 3) :
    opaqueRGBA rgb (4 * p + k) = rgb (3 * p + k) := by
  have h1 : (4 * p + k) % 4 = k := by omega
  have h2 : (4 * p + k) / 4 = p := by omega
  have h3 : k ≠ 3 := by omega
  simp only [opaqueRGBA, h1, h2, h3, if_false]

theorem opaqueRGBA_alpha (rgb : Int → Nat) (p : Int) : opaqueRGBA rgb (4 * p + 3) = 255 := by
  have h1 : (4 * p + 3) % 4 = 3 := by omega
  simp only [opaqueRGBA, h1, if_true]

theorem CompressImageRGB.pixel_eq (rgb : Int → Nat) (width height x y py px : Int)
    (st : List (Option Nat) × Int) :
    CompressImageRGB.pixel rgb width height x y py px st
      = CompressImage.pixel (opaqueRGBA rgb) width height x y py px st := by
  unfold CompressImageRGB.pixel CompressImage.pixel
  by_cases hc : x + px < width ∧ y + py < height
  · have e0 := opaqueRGBA_colour rgb (width * (y + py) + (x + px)) 0 (by decide) (by decide)
    have e1 := opaqueRGBA_colour rgb (width * (y + py) + (x + px)) 1 (by decide) (by decide)
    have e2 := opaqueRGBA_colour rgb (width * (y + py) + (x + px)) 2 (by decide) (by decide)
    have e3 := opaqueRGBA_alpha rgb (width * (y + py) + (x + px))
    simp only [hc, and_self, if_true, List.map, e0, e1, e2, e3, List.append_assoc,
      List.cons_append, List.nil_append]
  · simp only [hc, if_false]

theorem CompressImageRGB.buildTile_eq (rgb : Int → Nat) (width height x y : Int) :
    CompressImageRGB.buildTile rgb width height x y
      = CompressImage.buildTile (opaqueRGBA rgb) width height x y := by
  simp only [CompressImageRGB.buildTile, CompressImage.buildTile, CompressImageRGB.pixel_eq]

theorem CompressImageRGB.rgb_tiles_eq (rgb : Int → Nat) (width height flags bpb y : Int) :
    ∀ (fuel : Nat) (x tb : Int) (calls : List TileCall),
      CompressImageRGB.tiles rgb width height flags bpb y fuel x tb calls
        = CompressImage.tiles (opaqueRGBA rgb) width height flags bpb y fuel x tb calls := by
  intro fuel
  induction fuel with
  | zero => intro x tb calls; rfl
  | succ fuel ih =>
    intro x tb calls
    simp only [CompressImageRGB.tiles, CompressImage.tiles, CompressImageRGB.buildTile_eq, ih]

theorem CompressImageRGB.rgb_rows_eq (rgb : Int → Nat) (width height flags bpb : Int) :
    ∀ (fuel : Nat) (y tb : Int) (calls : List TileCall),
      CompressImageRGB.rows rgb width height flags bpb fuel y tb calls
        = CompressImage.rows (opaqueRGBA rgb) width height flags bpb fuel y tb calls := by
  intro fuel
  induction fuel with
  | zero => intro y tb calls; rfl
  | succ fuel ih =>
    intro y tb calls
    simp only [CompressImageRGB.rows, CompressImage.rows, CompressImageRGB.rgb_tiles_eq, ih]

/-- C12: `CompressImageRGB` on `rgb` makes the same calls of `CompressMasked` as
`CompressImage` on the RGBA image that has alpha 255 after the three bytes of every pixel of
`rgb`: the same tiles with the same masks, for the same blocks, in the same order, and the
same final `targetBlock`. -/
theorem CompressImageRGB_eq_CompressImage (rgb : Int → Nat) (width height flags : Int) :
    CompressImageRGB rgb width height flags
        = CompressImage (opaqueRGBA rgb) width height flags ∧
    ∀ p : Int, opaqueRGBA rgb (4 * p) = rgb (3 * p) ∧
      opaqueRGBA rgb (4 * p + 1) = rgb (3 * p + 1) ∧
      opaqueRGBA rgb (4 * p + 2) = rgb (3 * p + 2) ∧
      opaqueRGBA rgb (4 * p + 3) = 255 := by
  constructor
  · simp only [CompressImageRGB, CompressImage, CompressImageRGB.rgb_rows_eq]
  · intro p
    have e0 := opaqueRGBA_colour rgb p 0 (by decide) (by decide)
    simp only [add_zero] at e0
    exact ⟨e0, opaqueRGBA_colour rgb p 1 (by decide) (by decide),
      opaqueRGBA_colour rgb p 2 (by decide) (by decide), opaqueRGBA_alpha rgb p⟩

/-- What `DecompressImage` does on a 5 x 1 image with flags 0: the first tile stores its four
pixels of row 0, the second tile its one pixel in the image. -/
theorem DecompressImage_five_by_one :
    (DecompressImage (fun calls i => i.toNat + 100 * calls.length) 5 1 0).map
        (fun r => (r.1, r.2.map (fun d => (d.x, d.sourceBlock, d.writes))))
      = some ((16 : Int),
          ([(0, 0, [(0, 100), (1, 101), (2, 102), (3, 103), (4, 104), (5, 105), (6, 106),
              (7, 107), (8, 108), (9, 109), (10, 110), (11, 111), (12, 112), (13, 113),
              (14, 114), (15, 115)]),
            (4, 8, [(16, 100), (17, 101), (18, 102), (19, 103)])] :
            List (Int × Int × List (Int × Nat)))) := by
  rfl

/-- The bytes that the pixel body of `CompressImage` stores are the bytes of the source image
at the offsets of `pixelReads`. -/
theorem CompressImage.pixel_reads (rgba : Int → Nat) (width height x y py px : Int)
    (st : List (Option Nat) × Int) :
    (CompressImage.pixel rgba width height x y py px st).1
      = st.1 ++
          (if x + px < width ∧ y + py < height then
            (CompressImage.pixelReads width height x y py px).map (fun k => some (rgba k))
          else [none, none, none, none]) := by
  unfold CompressImage.pixel CompressImage.pixelReads
  by_cases hc : x + px < width ∧ y + py < height
  · simp [hc]
  · simp [hc]

theorem GetStorageRequirements_steps (width height flags : Int) (hw : 0 ≤ width)
    (hh : 0 ≤ height) :
    GetStorageRequirements width height flags
      = (stepsLeft height 0 : Int) *
          (stepsLeft width 0 * (if (FixFlags flags &&& kDxt1) ≠ 0 then 8 else 16)) := by
  rw [GetStorageRequirements_ceil width height flags hw hh, stepsLeft_zero_eq_ceil width hw,
    stepsLeft_zero_eq_ceil height hh]
  ring

theorem FlattenThrottleAbort.dxt1_tiles_eq (rgb : Int → Nat) (width flags bpb bw bh : Int)
    (masks : Nat × Nat × Nat) (y : Int) :
    ∀ (fuel : Nat) (x tb : Int) (calls : List Dxt1Call), stepsLeft width x < fuel →
      FlattenThrottleAbort.tiles rgb width flags bpb bw bh masks y fuel x tb calls
        = some (tb + stepsLeft width x * bpb,
            calls ++ FlattenThrottleAbort.rowCalls rgb width flags bpb bw bh masks y
              (stepsLeft width x) x tb) := by
  intro fuel
  induction fuel with
  | zero => intro x tb calls h; omega
  | succ fuel ih =>
    intro x tb calls h
    unfold FlattenThrottleAbort.tiles
    by_cases hx : x < width
    · have hs := stepsLeft_of_lt width x hx
      simp only [hx, if_true]
      rw [ih (x + 4) (tb + bpb) _ (by omega), hs]
      simp only [FlattenThrottleAbort.rowCalls, FlattenThrottleAbort.callAt,
        List.append_assoc, List.singleton_append]
      congr 2
      push_cast
      ring
    · have hs := stepsLeft_of_not_lt width x hx
      simp [hx, hs, FlattenThrottleAbort.rowCalls]

theorem FlattenThrottleAbort.dxt1_rows_eq (rgb : Int → Nat) (width height flags bpb bw bh : Int)
    (masks : Nat × Nat × Nat) (throttle : Bool) (b_abort : Nat → Bool) :
    ∀ (fuel : Nat) (y tb : Int) (calls : List Dxt1Call) (throttles polls : Nat),
      stepsLeft height y < fuel →
      FlattenThrottleAbort.rows rgb width height flags bpb bw bh masks throttle b_abort fuel y
          tb calls throttles polls
        = some
            (tb + FlattenThrottleAbort.rowsRun b_abort (stepsLeft height y) polls *
                (stepsLeft width 0 * bpb),
              calls ++ FlattenThrottleAbort.imageCalls rgb width flags bpb bw bh masks
                (stepsLeft width 0)
                (FlattenThrottleAbort.rowsRun b_abort (stepsLeft height y) polls) y tb,
              throttles +
                (if throttle then
                  FlattenThrottleAbort.rowsRun b_abort (stepsLeft height y) polls
                else 0)) := by
  intro fuel
  induction fuel with
  | zero => intro y tb calls throttles polls h; omega
  | succ fuel ih =>
    intro y tb calls throttles polls h
    unfold FlattenThrottleAbort.rows
    by_cases hy : y < height
    · have hs := stepsLeft_of_lt height y hy
      have hfuel : stepsLeft width 0 < width.toNat + 1 := by
        have := stepsLeft_le width 0 (le_refl 0)
        omega
      simp only [hy, if_true]
      rw [FlattenThrottleAbort.dxt1_tiles_eq rgb width flags bpb bw bh masks y _ 0 tb calls hfuel]
      simp only []
      rw [hs]
      by_cases hab : b_abort polls = true
      · simp only [hab, if_true, FlattenThrottleAbort.rowsRun,
          FlattenThrottleAbort.imageCalls, List.append_nil]
        cases throttle <;> simp
      · simp only [hab, if_false, FlattenThrottleAbort.rowsRun,
          FlattenThrottleAbort.imageCalls]
        rw [ih (y + 4) _ _ _ _ (by omega)]
        refine congrArg some (Prod.ext ?_ (Prod.ext ?_ ?_))
        · simp only []
          push_cast
          ring
        · simp only [List.append_assoc]
        · cases throttle
          · simp
          · simp only [if_true, Bool.false_eq_true, if_false]
            omega
    · have hs := stepsLeft_of_not_lt height y hy
      simp [hy, hs, FlattenThrottleAbort.imageCalls, FlattenThrottleAbort.rowsRun]

/-- The result of the variant: the loops never run out of fuel. -/
theorem CompressImageRGBpow2_Flatten_Throttle_Abort_eq (rgb : Int → Nat)
    (width height flags : Int) (b_flatten throttle : Bool) (b_abort : Nat → Bool) :
    CompressImageRGBpow2_Flatten_Throttle_Abort rgb width height flags b_flatten throttle
        b_abort
      = some
          ((FlattenThrottleAbort.rowsRun b_abort (stepsLeft height 0) 0 : Int) *
              (stepsLeft width 0 * (if (FixFlags flags &&& kDxt1) ≠ 0 then 8 else 16)),
            FlattenThrottleAbort.imageCalls rgb width (FixFlags flags)
              (if (FixFlags flags &&& kDxt1) ≠ 0 then 8 else 16) (min width 4) (min height 4)
              (FlattenThrottleAbort.flatMasks b_flatten) (stepsLeft width 0)
              (FlattenThrottleAbort.rowsRun b_abort (stepsLeft height 0) 0) 0 0,
            if throttle then FlattenThrottleAbort.rowsRun b_abort (stepsLeft height 0) 0
            else 0) := by
  have hfuel : stepsLeft height 0 < height.toNat + 1 := by
    have := stepsLeft_le height 0 (le_refl 0)
    omega
  simp only [CompressImageRGBpow2_Flatten_Throttle_Abort]
  rw [FlattenThrottleAbort.dxt1_rows_eq rgb width height (FixFlags flags) _ _ _ _ _ _ _ 0 0 [] 0 0
    hfuel]
  simp

/-- What the variant does on an 8 x 8 image with flags `kDxt3` when the second read of the
flag yields true: four tiles, blocks 16 bytes apart, two calls of the callback. -/
theorem CompressImageRGBpow2_Flatten_Throttle_Abort_eight_by_eight :
    (CompressImageRGBpow2_Flatten_Throttle_Abort (fun i => i.toNat % 256) 8 8 kDxt3 true true
        (fun n => decide (1 ≤ n))).map
        (fun r => (r.1, r.2.1.map (fun c => (c.x, c.y, c.targetBlock)), r.2.2))
      = some ((64 : Int), ([(0, 0, 0), (4, 0, 16), (0, 4, 32), (4, 4, 48)] :
          List (Int × Int × Int)), 2) := by
  rfl

theorem FlattenThrottleAbort.dxt1_rowCalls_length (rgb : Int → Nat) (width flags bpb bw bh : Int)
    (masks : Nat × Nat × Nat) (y : Int) :
    ∀ (n : Nat) (x tb : Int),
      (FlattenThrottleAbort.rowCalls rgb width flags bpb bw bh masks y n x tb).length = n := by
  intro n
  induction n with
  | zero => intro x tb; rfl
  | succ n ih => intro x tb; simp [FlattenThrottleAbort.rowCalls, ih]

theorem FlattenThrottleAbort.dxt1_rowCalls_get (rgb : Int → Nat) (width flags bpb bw bh : Int)
    (masks : Nat × Nat × Nat) (y : Int) :
    ∀ (n : Nat) (x tb : Int) (j : Nat), j < n →
      (FlattenThrottleAbort.rowCalls rgb width flags bpb bw bh masks y n x tb)[j]?
        = some (FlattenThrottleAbort.callAt rgb width flags bw bh masks (x + 4 * j) y
            (tb + j * bpb)) := by
  intro n
  induction n with
  | zero => intro x tb j h; omega
  | succ n ih =>
    intro x tb j h
    cases j with
    | zero => simp [FlattenThrottleAbort.rowCalls]
    | succ j =>
      simp only [FlattenThrottleAbort.rowCalls, List.getElem?_cons_succ]
      rw [ih (x + 4) (tb + bpb) j (by omega)]
      congr 2
      · push_cast; ring
      · push_cast; ring

theorem FlattenThrottleAbort.dxt1_imageCalls_length (rgb : Int → Nat)
    (width flags bpb bw bh : Int) (masks : Nat × Nat × Nat) (cw : Nat) :
    ∀ (m : Nat) (y tb : Int),
      (FlattenThrottleAbort.imageCalls rgb width flags bpb bw bh masks cw m y tb).length
        = m * cw := by
  intro m
  induction m with
  | zero => intro y tb; simp [FlattenThrottleAbort.imageCalls]
  | succ m ih =>
    intro y tb
    simp only [FlattenThrottleAbort.imageCalls, List.length_append, ih,
      FlattenThrottleAbort.dxt1_rowCalls_length]
    ring

theorem FlattenThrottleAbort.dxt1_imageCalls_get (rgb : Int → Nat) (width flags bpb bw bh : Int)
    (masks : Nat × Nat × Nat) (cw : Nat) :
    ∀ (m : Nat) (y tb : Int) (i j : Nat), i < m → j < cw →
      (FlattenThrottleAbort.imageCalls rgb width flags bpb bw bh masks cw m y tb)[i * cw + j]?
        = some (FlattenThrottleAbort.callAt rgb width flags bw bh masks (4 * j) (y + 4 * i)
            (tb + ((i * cw + j : Nat) : Int) * bpb)) := by
  intro m
  induction m with
  | zero => intro y tb i j h; omega
  | succ m ih =>
    intro y tb i j hi hj
    simp only [FlattenThrottleAbort.imageCalls]
    cases i with
    | zero =>
      rw [List.getElem?_append_left (by simp [FlattenThrottleAbort.dxt1_rowCalls_length]; omega)]
      simp only [Nat.zero_mul, Nat.zero_add]
      rw [FlattenThrottleAbort.dxt1_rowCalls_get _ _ _ _ _ _ _ _ cw 0 tb j hj]
      simp
    | succ i =>
      have hidx : (i + 1) * cw + j = cw + (i * cw + j) := by ring
      rw [hidx,
        List.getElem?_append_right (by simp [FlattenThrottleAbort.dxt1_rowCalls_length])]
      simp only [FlattenThrottleAbort.dxt1_rowCalls_length, Nat.add_sub_cancel_left]
      rw [ih (y + 4) _ i j (by omega) hj]
      congr 2
      · push_cast; ring
      · push_cast; ring

theorem FlattenThrottleAbort.imageCalls_index (rgb : Int → Nat) (width flags bpb bw bh : Int)
    (masks : Nat × Nat × Nat) (cw m : Nat) (y tb : Int) (k : Nat) (c : Dxt1Call)
    (hk : (FlattenThrottleAbort.imageCalls rgb width flags bpb bw bh masks cw m y tb)[k]?
      = some c) :
    ∃ i j : Nat, i < m ∧ j < cw ∧ k = i * cw + j ∧
      c = FlattenThrottleAbort.callAt rgb width flags bw bh masks (4 * j) (y + 4 * i)
        (tb + (k : Int) * bpb) := by
  have hlt : k < m * cw := by
    have hlen := FlattenThrottleAbort.dxt1_imageCalls_length rgb width flags bpb bw bh masks cw m y tb
    rcases Nat.lt_or_ge k (m * cw) with h | h
    · exact h
    · rw [List.getElem?_eq_none (by omega)] at hk
      exact absurd hk (by simp)
  have hcw : 0 < cw := by
    rcases Nat.eq_zero_or_pos cw with h | h
    · subst h
      simp at hlt
    · exact h
  have hi : k / cw < m := by
    rw [Nat.div_lt_iff_lt_mul hcw]
    exact hlt
  have hj : k % cw < cw := Nat.mod_lt _ hcw
  have hidx : k = k / cw * cw + k % cw := by
    rw [Nat.mul_comm]
    exact (Nat.div_add_mod k cw).symm
  refine ⟨k / cw, k % cw, hi, hj, hidx, ?_⟩
  have hget := FlattenThrottleAbort.dxt1_imageCalls_get rgb width flags bpb bw bh masks cw m y tb
    (k / cw) (k % cw) hi hj
  rw [← hidx, hk] at hget
  exact Option.some.inj hget

theorem FlattenThrottleAbort.dxt1_mem_imageCalls (rgb : Int → Nat) (width flags bpb bw bh : Int)
    (masks : Nat × Nat × Nat) (cw m : Nat) (y tb : Int) (c : Dxt1Call)
    (hc : c ∈ FlattenThrottleAbort.imageCalls rgb width flags bpb bw bh masks cw m y tb) :
    ∃ (i j : Nat) (tb1 : Int), i < m ∧ j < cw ∧
      c = FlattenThrottleAbort.callAt rgb width flags bw bh masks (4 * j) (y + 4 * i) tb1 := by
  obtain ⟨k, hk⟩ := List.mem_iff_getElem?.mp hc
  obtain ⟨i, j, hi, hj, _, hcall⟩ :=
    FlattenThrottleAbort.imageCalls_index _ _ _ _ _ _ _ _ _ _ _ k c hk
  exact ⟨i, j, _, hi, hj, hcall⟩

theorem FlattenThrottleAbort.imageCalls_add (rgb : Int → Nat) (width flags bpb bw bh : Int)
    (masks : Nat × Nat × Nat) (cw : Nat) :
    ∀ (a b : Nat) (y tb : Int),
      FlattenThrottleAbort.imageCalls rgb width flags bpb bw bh masks cw (a + b) y tb
        = FlattenThrottleAbort.imageCalls rgb width flags bpb bw bh masks cw a y tb ++
            FlattenThrottleAbort.imageCalls rgb width flags bpb bw bh masks cw b
              (y + 4 * a) (tb + a * (cw * bpb)) := by
  intro a
  induction a with
  | zero =>
    intro b y tb
    simp [FlattenThrottleAbort.imageCalls]
  | succ a ih =>
    intro b y tb
    have hab : a + 1 + b = (a + b) + 1 := by omega
    rw [hab]
    simp only [FlattenThrottleAbort.imageCalls, List.append_assoc]
    rw [ih b (y + 4) (tb + cw * bpb)]
    congr 3
    · push_cast; ring
    · push_cast; ring

theorem FlattenThrottleAbort.rowsRun_first (b_abort : Nat → Bool) :
    ∀ (r m p : Nat), r < m → b_abort (p + r) = true →
      (∀ k, k < r → b_abort (p + k) = false) →
      FlattenThrottleAbort.rowsRun b_abort m p = r + 1 := by
  intro r
  induction r with
  | zero =>
    intro m p hr htrue _
    cases m with
    | zero => omega
    | succ m =>
      have h0 : b_abort p = true := by simpa using htrue
      simp [FlattenThrottleAbort.rowsRun, h0]
  | succ r ih =>
    intro m p hr htrue hfirst
    cases m with
    | zero => omega
    | succ m =>
      have h0 : b_abort p = false := by simpa using hfirst 0 (by omega)
      have hrec := ih m (p + 1) (by omega)
        (by rw [show p + 1 + r = p + (r + 1) by omega]; exact htrue)
        (by
          intro k hk
          rw [show p + 1 + k = p + (k + 1) by omega]
          exact hfirst (k + 1) (by omega))
      simp [FlattenThrottleAbort.rowsRun, h0, hrec]

theorem FlattenThrottleAbort.rowsRun_never (b_abort : Nat → Bool) :
    ∀ (m p : Nat), (∀ k, k < m → b_abort (p + k) = false) →
      FlattenThrottleAbort.rowsRun b_abort m p = m := by
  intro m
  induction m with
  | zero => intro p _; rfl
  | succ m ih =>
    intro p hnever
    have h0 : b_abort p = false := by simpa using hnever 0 (by omega)
    have hrec := ih (p + 1) (by
      intro k hk
      rw [show p + 1 + k = p + (k + 1) by omega]
      exact hnever (k + 1) (by omega))
    simp [FlattenThrottleAbort.rowsRun, h0, hrec]

/-- C15 as stated fails: with flags `kDxt3` on an 8 x 4 image the variant puts its second
block at byte 16, not at byte 8. -/
theorem variant_blocks_counterexample :
    (CompressImageRGBpow2_Flatten_Throttle_Abort (fun _ => 0) 8 4 kDxt3 false false
        (fun _ => false)).map (fun r => r.2.1.map (fun c => c.targetBlock))
      = some [0, 16] ∧
    (CompressImageRGBpow2_Flatten_Throttle_Abort (fun _ => 0) 8 4 kDxt3 false false
        (fun _ => false)).map (fun r => r.2.1.map (fun c => c.targetBlock))
      ≠ some [8 * 0, 8 * 1] := by
  constructor
  · rfl
  · decide

/-- C15, amended: whatever the flags, the variant returns and every tile is compressed by
`Compress_dxt1`, which makes one `Compress3` call of a fit on the start of the tile's block and
no alpha call; the block of call number `k` starts at `k` times the block size that the
function computes from the normalised flags (8 for method `kDxt1`, 16 for `kDxt3` and
`kDxt5`), so that with method `kDxt1` it starts at byte `8 * k`, right after its
predecessor. -/
theorem variant_blocks (GetCount : ColourSet (List (Option Nat)) → Nat) (rgb : Int → Nat)
    (width height flags : Int) (b_flatten throttle : Bool) (b_abort : Nat → Bool) :
    ∃ r : Int × List Dxt1Call × Nat,
      CompressImageRGBpow2_Flatten_Throttle_Abort rgb width height flags b_flatten throttle
        b_abort = some r ∧
      ∀ (k : Nat) (c : Dxt1Call), r.2.1[k]? = some c →
        c.flags = FixFlags flags ∧
        Compress_dxt1 GetCount c.sourceRgba c.targetBlock c.flags
          = [Call.Compress3
              (specFit3 (GetCount (ColourSet.full c.sourceRgba (FixFlags flags)))
                (FixFlags flags))
              (ColourSet.full c.sourceRgba (FixFlags flags)) (FixFlags flags) c.targetBlock] ∧
        c.targetBlock = (k : Int) * (if methodBits (FixFlags flags) = kDxt1 then 8 else 16) ∧
        (methodBits (FixFlags flags) = kDxt1 → c.targetBlock = 8 * (k : Int)) := by
  refine ⟨_, CompressImageRGBpow2_Flatten_Throttle_Abort_eq rgb width height flags b_flatten
    throttle b_abort, ?_⟩
  intro k c hk
  obtain ⟨i, j, _, _, _, rfl⟩ :=
    FlattenThrottleAbort.imageCalls_index _ _ _ _ _ _ _ _ _ _ _ k c hk
  have hbs := (blocksize_eq flags).1
  simp only [FlattenThrottleAbort.callAt]
  refine ⟨trivial, Compress_dxt1_eq GetCount _ _ flags, ?_, ?_⟩
  · rw [← hbs]
    ring
  · intro hm
    rw [hbs, if_pos hm]
    ring

/-- C19: the variant polls the flag once after every tile row.  If the first read that yields
true is the one after row `r`, it has made exactly the first `(r + 1) * ceil(width/4)` calls
of the run that is never aborted and `r + 1` calls of a non-null callback; if no read after
any of the `ceil(height/4)` rows yields true, it makes all the calls of that run and
`ceil(height/4)` calls of the callback.  A flag that is set from the start still lets row 0
through. -/
theorem abort_stops_at_row_boundary (rgb : Int → Nat) (width height flags : Int)
    (b_flatten throttle : Bool) (b_abort : Nat → Bool) (hw : 0 ≤ width) (hh : 0 ≤ height) :
    ∃ full : Int × List Dxt1Call × Nat,
      CompressImageRGBpow2_Flatten_Throttle_Abort rgb width height flags b_flatten throttle
        (fun _ => false) = some full ∧
      full.2.1.length = ⌈(height : ℚ) / 4⌉.toNat * ⌈(width : ℚ) / 4⌉.toNat ∧
      full.2.2 = (if throttle then ⌈(height : ℚ) / 4⌉.toNat else 0) ∧
      (∀ r : Nat, r < ⌈(height : ℚ) / 4⌉.toNat → b_abort r = true →
        (∀ k, k < r → b_abort k = false) →
        ∃ res : Int × List Dxt1Call × Nat,
          CompressImageRGBpow2_Flatten_Throttle_Abort rgb width height flags b_flatten
            throttle b_abort = some res ∧
          res.2.1 = full.2.1.take ((r + 1) * ⌈(width : ℚ) / 4⌉.toNat) ∧
          res.2.1.length = (r + 1) * ⌈(width : ℚ) / 4⌉.toNat ∧
          res.2.2 = (if throttle then r + 1 else 0)) ∧
      ((∀ k, k < ⌈(height : ℚ) / 4⌉.toNat → b_abort k = false) →
        CompressImageRGBpow2_Flatten_Throttle_Abort rgb width height flags b_flatten throttle
          b_abort = some full) := by
  have hcw : ⌈(width : ℚ) / 4⌉.toNat = stepsLeft width 0 := by
    rw [← stepsLeft_zero_eq_ceil width hw, Int.toNat_ofNat]
  have hch : ⌈(height : ℚ) / 4⌉.toNat = stepsLeft height 0 := by
    rw [← stepsLeft_zero_eq_ceil height hh, Int.toNat_ofNat]
  rw [hcw, hch]
  have hfull : FlattenThrottleAbort.rowsRun (fun _ => false) (stepsLeft height 0) 0
      = stepsLeft height 0 :=
    FlattenThrottleAbort.rowsRun_never _ _ 0 (fun _ _ => rfl)
  refine ⟨_, CompressImageRGBpow2_Flatten_Throttle_Abort_eq rgb width height flags b_flatten
    throttle (fun _ => false), ?_, ?_, ?_, ?_⟩
  · simp only [hfull, FlattenThrottleAbort.dxt1_imageCalls_length]
  · simp only [hfull]
  · intro r hr htrue hfirst
    have hrun : FlattenThrottleAbort.rowsRun b_abort (stepsLeft height 0) 0 = r + 1 :=
      FlattenThrottleAbort.rowsRun_first b_abort r _ 0 hr (by simpa using htrue)
        (by simpa using hfirst)
    refine ⟨_, CompressImageRGBpow2_Flatten_Throttle_Abort_eq rgb width height flags
      b_flatten throttle b_abort, ?_, ?_, ?_⟩
    · simp only [hfull, hrun]
      obtain ⟨rest, hrest⟩ : ∃ rest, stepsLeft height 0 = (r + 1) + rest :=
        ⟨stepsLeft height 0 - (r + 1), by omega⟩
      have hsplit := FlattenThrottleAbort.imageCalls_add rgb width (FixFlags flags)
        (if (FixFlags flags &&& kDxt1) ≠ 0 then 8 else 16) (min width 4) (min height 4)
        (FlattenThrottleAbort.flatMasks b_flatten) (stepsLeft width 0) (r + 1) rest 0 0
      rw [hrest, hsplit, List.take_left' (FlattenThrottleAbort.dxt1_imageCalls_length _ _ _ _ _ _ _
        _ _ _ _)]
    · simp only [hrun, FlattenThrottleAbort.dxt1_imageCalls_length]
    · simp only [hrun]
  · intro hnever
    have hrun : FlattenThrottleAbort.rowsRun b_abort (stepsLeft height 0) 0
        = stepsLeft height 0 :=
      FlattenThrottleAbort.rowsRun_never b_abort _ 0 (by simpa using hnever)
    rw [CompressImageRGBpow2_Flatten_Throttle_Abort_eq, hrun, hfull]

/-- Witness for C19: on an 8 x 8 image with a flag that is set from the start, the variant
makes the two calls of row 0 and one call of the callback. -/
theorem abort_stops_at_row_boundary_witness :
    ((0 : Int) ≤ 8 ∧ (0 : Int) ≤ 8) ∧
    ∃ full : Int × List Dxt1Call × Nat,
      CompressImageRGBpow2_Flatten_Throttle_Abort (fun i => i.toNat % 256) 8 8 0 false true
        (fun _ => false) = some full ∧
      ∃ res : Int × List Dxt1Call × Nat,
        CompressImageRGBpow2_Flatten_Throttle_Abort (fun i => i.toNat % 256) 8 8 0 false true
          (fun _ => true) = some res ∧
        res.2.1 = full.2.1.take ((0 + 1) * ⌈((8 : Int) : ℚ) / 4⌉.toNat) ∧
        res.2.1.length = (0 + 1) * ⌈((8 : Int) : ℚ) / 4⌉.toNat ∧
        res.2.2 = (if true then 0 + 1 else 0) := by
  refine ⟨by decide, ?_⟩
  obtain ⟨full, hfull, _, _, hab, _⟩ :=
    abort_stops_at_row_boundary (fun i => i.toNat % 256) 8 8 0 false true (fun _ => true)
      (by decide) (by decide)
  have hrows : 0 < ⌈((8 : Int) : ℚ) / 4⌉.toNat := by
    have h2 : ⌈((8 : Int) : ℚ) / 4⌉ = 2 := by
      rw [Int.ceil_eq_iff]
      norm_num
    rw [h2]
    decide
  exact ⟨full, hfull, hab 0 hrows rfl (fun k hk => absurd hk (by omega))⟩

theorem FlattenThrottleAbort.dxt1_TileInv_zero (rgb : Int → Nat) (width x y bw bh : Int)
    (masks : Nat × Nat × Nat) :
    FlattenThrottleAbort.TileInv rgb width x y bw bh masks 0 [] := by
  refine ⟨rfl, ?_⟩
  intro t ht
  omega

theorem FlattenThrottleAbort.dxt1_TileInv_step (rgb : Int → Nat) (width x y bw bh : Int)
    (masks : Nat × Nat × Nat) (s : Nat) (py px : Int)
    (hpy : py = ((s / 4 : Nat) : Int)) (hpx : px = ((s % 4 : Nat) : Int))
    (st : List (Option Nat))
    (h : FlattenThrottleAbort.TileInv rgb width x y bw bh masks s st) :
    FlattenThrottleAbort.TileInv rgb width x y bw bh masks (s + 1)
      (FlattenThrottleAbort.pixel rgb width x y bw bh masks py px st) := by
  obtain ⟨hlen, hbytes⟩ := h
  unfold FlattenThrottleAbort.pixel
  refine ⟨?_, ?_⟩
  · simp [hlen]
    omega
  · intro t ht
    by_cases hts : t < s
    · obtain ⟨h0, h1, h2, h3⟩ := hbytes t hts
      rw [List.getElem?_append_left (by omega), List.getElem?_append_left (by omega),
        List.getElem?_append_left (by omega), List.getElem?_append_left (by omega)]
      exact ⟨h0, h1, h2, h3⟩
    · have hteq : t = s := by omega
      subst hteq
      rw [List.getElem?_append_right (by omega), List.getElem?_append_right (by omega),
        List.getElem?_append_right (by omega), List.getElem?_append_right (by omega), hlen,
        ← hpy, ← hpx]
      have e0 : 4 * t - 4 * t = 0 := by omega
      have e1 : 4 * t + 1 - 4 * t = 1 := by omega
      have e2 : 4 * t + 2 - 4 * t = 2 := by omega
      have e3 : 4 * t + 3 - 4 * t = 3 := by omega
      rw [e0, e1, e2, e3]
      simp

theorem FlattenThrottleAbort.dxt1_buildTile_inv (rgb : Int → Nat) (width x y bw bh : Int)
    (masks : Nat × Nat × Nat) :
    FlattenThrottleAbort.TileInv rgb width x y bw bh masks 16
      (FlattenThrottleAbort.buildTile rgb width x y bw bh masks) := by
  have step := FlattenThrottleAbort.dxt1_TileInv_step rgb width x y bw bh masks
  have h0 := FlattenThrottleAbort.dxt1_TileInv_zero rgb width x y bw bh masks
  have h1 := step 0 0 0 (by decide) (by decide) _ h0
  have h2 := step 1 0 1 (by decide) (by decide) _ h1
  have h3 := step 2 0 2 (by decide) (by decide) _ h2
  have h4 := step 3 0 3 (by decide) (by decide) _ h3
  have h5 := step 4 1 0 (by decide) (by decide) _ h4
  have h6 := step 5 1 1 (by decide) (by decide) _ h5
  have h7 := step 6 1 2 (by decide) (by decide) _ h6
  have h8 := step 7 1 3 (by decide) (by decide) _ h7
  have h9 := step 8 2 0 (by decide) (by decide) _ h8
  have h10 := step 9 2 1 (by decide) (by decide) _ h9
  have h11 := step 10 2 2 (by decide) (by decide) _ h10
  have h12 := step 11 2 3 (by decide) (by decide) _ h11
  have h13 := step 12 3 0 (by decide) (by decide) _ h12
  have h14 := step 13 3 1 (by decide) (by decide) _ h13
  have h15 := step 14 3 2 (by decide) (by decide) _ h14
  have h16 := step 15 3 3 (by decide) (by decide) _ h15
  exact h16

/-- The four bytes of slot `4 * py + px` of the tile that the variant builds at `(x, y)`. -/
theorem FlattenThrottleAbort.buildTile_slot (rgb : Int → Nat) (width x y bw bh : Int)
    (masks : Nat × Nat × Nat) (px py : Nat) (hpx : px < 4) (hpy : py < 4) :
    (FlattenThrottleAbort.buildTile rgb width x y bw bh masks)[4 * (4 * py + px)]?
      = some (some (rgb (FlattenThrottleAbort.sourcePixel width x y bw bh py px + 0)
          &&& masks.1)) ∧
    (FlattenThrottleAbort.buildTile rgb width x y bw bh masks)[4 * (4 * py + px) + 1]?
      = some (some (rgb (FlattenThrottleAbort.sourcePixel width x y bw bh py px + 1)
          &&& masks.2.1)) ∧
    (FlattenThrottleAbort.buildTile rgb width x y bw bh masks)[4 * (4 * py + px) + 2]?
      = some (some (rgb (FlattenThrottleAbort.sourcePixel width x y bw bh py px + 2)
          &&& masks.2.2)) ∧
    (FlattenThrottleAbort.buildTile rgb width x y bw bh masks)[4 * (4 * py + px) + 3]?
      = some (some 255) := by
  obtain ⟨_, hbytes⟩ := FlattenThrottleAbort.dxt1_buildTile_inv rgb width x y bw bh masks
  have h := hbytes (4 * py + px) (by omega)
  have e1 : (4 * py + px) / 4 = py := by omega
  have e2 : (4 * py + px) % 4 = px := by omega
  rw [e1, e2] at h
  exact h

set_option maxRecDepth 1000000 in
theorem low_bits_cleared (v : Nat) (hv : v < 256) :
    v &&& 0xf8 = v - v % 8 ∧ v &&& 0xfc = v - v % 4 ∧ v &&& 0xff = v := by
  revert v
  decide

/-- C16 as stated fails: with `b_flatten` set, a source pixel `(31, 31, 31)` reaches the fit
as `(24, 28, 24, 255)`; its R byte with the 5 low bits cleared would be 0. -/
theorem flatten_trims_counterexample :
    (CompressImageRGBpow2_Flatten_Throttle_Abort (fun _ => 31) 4 4 0 true false
        (fun _ => false)).map (fun r => r.2.1.map (fun c => c.sourceRgba.take 4))
      = some [[some 24, some 28, some 24, some 255]] ∧
    (31 : Nat) - 31 % 2 ^ 5 = 0 ∧ (24 : Nat) ≠ 0 := by
  refine ⟨rfl, by decide, by decide⟩

/-- C16, amended: flattening clears the 3, 2 and 3 low bits of R, G and B.  For source bytes
below 256 and every call of `Compress_dxt1` that the variant makes, slot `4 * py + px` of the
tile holds, when `b_flatten` is true, the R byte of its source pixel with the 3 low bits
cleared, the G byte with the 2 low bits cleared, the B byte with the 3 low bits cleared, and
255; when `b_flatten` is false it holds the three source bytes unchanged, and 255. -/
theorem flatten_trims (rgb : Int → Nat) (hbyte : ∀ i, rgb i < 256) (width height flags : Int)
    (b_flatten throttle : Bool) (b_abort : Nat → Bool) :
    ∃ r : Int × List Dxt1Call × Nat,
      CompressImageRGBpow2_Flatten_Throttle_Abort rgb width height flags b_flatten throttle
        b_abort = some r ∧
      ∀ c ∈ r.2.1, ∀ px py : Nat, px < 4 → py < 4 →
        c.sourceRgba[4 * (4 * py + px)]?
          = some (some (if b_flatten then
              rgb (FlattenThrottleAbort.sourcePixel width c.x c.y (min width 4) (min height 4)
                  py px + 0) -
                rgb (FlattenThrottleAbort.sourcePixel width c.x c.y (min width 4)
                  (min height 4) py px + 0) % 2 ^ 3
            else
              rgb (FlattenThrottleAbort.sourcePixel width c.x c.y (min width 4) (min height 4)
                py px + 0))) ∧
        c.sourceRgba[4 * (4 * py + px) + 1]?
          = some (some (if b_flatten then
              rgb (FlattenThrottleAbort.sourcePixel width c.x c.y (min width 4) (min height 4)
                  py px + 1) -
                rgb (FlattenThrottleAbort.sourcePixel width c.x c.y (min width 4)
                  (min height 4) py px + 1) % 2 ^ 2
            else
              rgb (FlattenThrottleAbort.sourcePixel width c.x c.y (min width 4) (min height 4)
                py px + 1))) ∧
        c.sourceRgba[4 * (4 * py + px) + 2]?
          = some (some (if b_flatten then
              rgb (FlattenThrottleAbort.sourcePixel width c.x c.y (min width 4) (min height 4)
                  py px + 2) -
                rgb (FlattenThrottleAbort.sourcePixel width c.x c.y (min width 4)
                  (min height 4) py px + 2) % 2 ^ 3
            else
              rgb (FlattenThrottleAbort.sourcePixel width c.x c.y (min width 4) (min height 4)
                py px + 2))) ∧
        c.sourceRgba[4 * (4 * py + px) + 3]? = some (some 255) := by
  refine ⟨_, CompressImageRGBpow2_Flatten_Throttle_Abort_eq rgb width height flags b_flatten
    throttle b_abort, ?_⟩
  intro c hc px py hpx hpy
  obtain ⟨i, j, tb1, _, _, rfl⟩ := FlattenThrottleAbort.dxt1_mem_imageCalls _ _ _ _ _ _ _ _ _ _ _ c hc
  obtain ⟨h0, h1, h2, h3⟩ := FlattenThrottleAbort.buildTile_slot rgb width (4 * (j : Int))
    (0 + 4 * (i : Int)) (min width 4) (min height 4) (FlattenThrottleAbort.flatMasks b_flatten)
    px py hpx hpy
  simp only [FlattenThrottleAbort.callAt]
  rw [h0, h1, h2, h3]
  have l0 := low_bits_cleared _ (hbyte (FlattenThrottleAbort.sourcePixel width (4 * (j : Int))
    (0 + 4 * (i : Int)) (min width 4) (min height 4) py px + 0))
  have l1 := low_bits_cleared _ (hbyte (FlattenThrottleAbort.sourcePixel width (4 * (j : Int))
    (0 + 4 * (i : Int)) (min width 4) (min height 4) py px + 1))
  have l2 := low_bits_cleared _ (hbyte (FlattenThrottleAbort.sourcePixel width (4 * (j : Int))
    (0 + 4 * (i : Int)) (min width 4) (min height 4) py px + 2))
  cases b_flatten
  · simp only [FlattenThrottleAbort.flatMasks, Bool.false_eq_true, if_false]
    rw [l0.2.2, l1.2.2, l2.2.2]
    exact ⟨rfl, rfl, rfl, trivial⟩
  · simp only [FlattenThrottleAbort.flatMasks, if_true]
    rw [l0.1, l1.2.1, l2.1]
    exact ⟨rfl, rfl, rfl, trivial⟩

/-- Witness for C16 (amended): an image whose bytes are below 256. -/
theorem flatten_trims_witness :
    (∀ i : Int, (fun i : Int => i.toNat % 256) i < 256) ∧
    ∃ r : Int × List Dxt1Call × Nat,
      CompressImageRGBpow2_Flatten_Throttle_Abort (fun i => i.toNat % 256) 8 8 0 true false
        (fun _ => false) = some r ∧
      ∀ c ∈ r.2.1, ∀ px py : Nat, px < 4 → py < 4 →
        c.sourceRgba[4 * (4 * py + px)]?
          = some (some (if true = true then
              (fun i : Int => i.toNat % 256) (FlattenThrottleAbort.sourcePixel 8 c.x c.y
                  (min 8 4) (min 8 4) py px + 0) -
                (fun i : Int => i.toNat % 256) (FlattenThrottleAbort.sourcePixel 8 c.x c.y
                  (min 8 4) (min 8 4) py px + 0) % 2 ^ 3
            else
              (fun i : Int => i.toNat % 256) (FlattenThrottleAbort.sourcePixel 8 c.x c.y
                (min 8 4) (min 8 4) py px + 0))) ∧
        c.sourceRgba[4 * (4 * py + px) + 1]?
          = some (some (if true = true then
              (fun i : Int => i.toNat % 256) (FlattenThrottleAbort.sourcePixel 8 c.x c.y
                  (min 8 4) (min 8 4) py px + 1) -
                (fun i : Int => i.toNat % 256) (FlattenThrottleAbort.sourcePixel 8 c.x c.y
                  (min 8 4) (min 8 4) py px + 1) % 2 ^ 2
            else
              (fun i : Int => i.toNat % 256) (FlattenThrottleAbort.sourcePixel 8 c.x c.y
                (min 8 4) (min 8 4) py px + 1))) ∧
        c.sourceRgba[4 * (4 * py + px) + 2]?
          = some (some (if true = true then
              (fun i : Int => i.toNat % 256) (FlattenThrottleAbort.sourcePixel 8 c.x c.y
                  (min 8 4) (min 8 4) py px + 2) -
                (fun i : Int => i.toNat % 256) (FlattenThrottleAbort.sourcePixel 8 c.x c.y
                  (min 8 4) (min 8 4) py px + 2) % 2 ^ 3
            else
              (fun i : Int => i.toNat % 256) (FlattenThrottleAbort.sourcePixel 8 c.x c.y
                (min 8 4) (min 8 4) py px + 2))) ∧
        c.sourceRgba[4 * (4 * py + px) + 3]? = some (some 255) :=
  ⟨fun i => Nat.mod_lt _ (by decide),
    flatten_trims (fun i => i.toNat % 256) (fun i => Nat.mod_lt _ (by decide)) 8 8 0 true false
      (fun _ => false)⟩

theorem flattenImage_channel (masks : Nat × Nat × Nat) (rgb : Int → Nat) (q : Int) :
    flattenImage masks rgb (3 * q + 0) &&& masks.1 = rgb (3 * q + 0) &&& masks.1 ∧
    flattenImage masks rgb (3 * q + 1) &&& masks.2.1 = rgb (3 * q + 1) &&& masks.2.1 ∧
    flattenImage masks rgb (3 * q + 2) &&& masks.2.2 = rgb (3 * q + 2) &&& masks.2.2 := by
  have e0 : (3 * q + 0) % 3 = 0 := by omega
  have e1 : (3 * q + 1) % 3 = 1 := by omega
  have e2 : (3 * q + 2) % 3 = 2 := by omega
  simp only [flattenImage, e0, e1, e2, if_true, Nat.and_assoc, Nat.and_self]
  refine ⟨trivial, ?_, ?_⟩
  · simp
  · simp

theorem FlattenThrottleAbort.pixel_flattenImage (rgb : Int → Nat) (width x y bw bh : Int)
    (masks : Nat × Nat × Nat) (py px : Int) (st : List (Option Nat)) :
    FlattenThrottleAbort.pixel (flattenImage masks rgb) width x y bw bh masks py px st
      = FlattenThrottleAbort.pixel rgb width x y bw bh masks py px st := by
  obtain ⟨h0, h1, h2⟩ := flattenImage_channel masks rgb
    (width * FlattenThrottleAbort.sy y bh py + FlattenThrottleAbort.sx x bw px)
  simp only [FlattenThrottleAbort.pixel, FlattenThrottleAbort.sourcePixel, h0, h1, h2]

theorem FlattenThrottleAbort.buildTile_flattenImage (rgb : Int → Nat)
    (width x y bw bh : Int) (masks : Nat × Nat × Nat) :
    FlattenThrottleAbort.buildTile (flattenImage masks rgb) width x y bw bh masks
      = FlattenThrottleAbort.buildTile rgb width x y bw bh masks := by
  simp only [FlattenThrottleAbort.buildTile, FlattenThrottleAbort.pixel_flattenImage]

theorem FlattenThrottleAbort.tiles_flattenImage (rgb : Int → Nat)
    (width flags bpb bw bh : Int) (masks : Nat × Nat × Nat) (y : Int) :
    ∀ (fuel : Nat) (x tb : Int) (calls : List Dxt1Call),
      FlattenThrottleAbort.tiles (flattenImage masks rgb) width flags bpb bw bh masks y fuel x
          tb calls
        = FlattenThrottleAbort.tiles rgb width flags bpb bw bh masks y fuel x tb calls := by
  intro fuel
  induction fuel with
  | zero => intro x tb calls; rfl
  | succ fuel ih =>
    intro x tb calls
    simp only [FlattenThrottleAbort.tiles, FlattenThrottleAbort.buildTile_flattenImage, ih]

theorem FlattenThrottleAbort.rows_flattenImage (rgb : Int → Nat)
    (width height flags bpb bw bh : Int) (masks : Nat × Nat × Nat) (throttle : Bool)
    (b_abort : Nat → Bool) :
    ∀ (fuel : Nat) (y tb : Int) (calls : List Dxt1Call) (throttles polls : Nat),
      FlattenThrottleAbort.rows (flattenImage masks rgb) width height flags bpb bw bh masks
          throttle b_abort fuel y tb calls throttles polls
        = FlattenThrottleAbort.rows rgb width height flags bpb bw bh masks throttle b_abort
            fuel y tb calls throttles polls := by
  intro fuel
  induction fuel with
  | zero => intro y tb calls throttles polls; rfl
  | succ fuel ih =>
    intro y tb calls throttles polls
    simp only [FlattenThrottleAbort.rows, FlattenThrottleAbort.tiles_flattenImage, ih]

/-- C17: flattening only removes precision.  For every byte `c` and each of the three masks
`m` that the variant sets up, `c & m` is at most `c`, has no bit that `c` lacks, and is
unchanged by a second masking, `(c & m) & m = c & m`; hence the variant makes the same calls,
with the same tiles, on an image that has been flattened already as on the image itself. -/
theorem flatten_only_removes_precision (rgb : Int → Nat) (width height flags : Int)
    (b_flatten throttle : Bool) (b_abort : Nat → Bool) :
    (∀ (c : Nat), ∀ m ∈ [(FlattenThrottleAbort.flatMasks b_flatten).1,
        (FlattenThrottleAbort.flatMasks b_flatten).2.1,
        (FlattenThrottleAbort.flatMasks b_flatten).2.2],
      c &&& m ≤ c ∧ (c &&& m) &&& m = c &&& m ∧
        ∀ k : Nat, (c &&& m).testBit k = true → c.testBit k = true) ∧
    CompressImageRGBpow2_Flatten_Throttle_Abort
        (flattenImage (FlattenThrottleAbort.flatMasks b_flatten) rgb) width height flags
        b_flatten throttle b_abort
      = CompressImageRGBpow2_Flatten_Throttle_Abort rgb width height flags b_flatten throttle
          b_abort := by
  constructor
  · intro c m _
    refine ⟨Nat.and_le_left, ?_, ?_⟩
    · rw [Nat.and_assoc, Nat.and_self]
    · intro k hk
      rw [Nat.testBit_and] at hk
      simp only [Bool.and_eq_true] at hk
      exact hk.1
  · simp only [CompressImageRGBpow2_Flatten_Throttle_Abort,
      FlattenThrottleAbort.rows_flattenImage]

/-- The image of `flattenImage` under the masks of a set `b_flatten` has the 3, 2 and 3 low
bits of its R, G and B bytes cleared, here on a pixel `(255, 255, 255)`. -/
theorem flattenImage_white :
    (flattenImage (FlattenThrottleAbort.flatMasks true) (fun _ => 255) 0,
      flattenImage (FlattenThrottleAbort.flatMasks true) (fun _ => 255) 1,
      flattenImage (FlattenThrottleAbort.flatMasks true) (fun _ => 255) 2) = (248, 252, 248) := by
  decide

theorem wrap_coord (w x : Int) (j px : Nat) (hx : x = 4 * (j : Int)) (hxw : x < w)
    (hgood : w ≤ 4 ∨ w % 4 = 0) (hpx : px < 4) :
    x + (px : Int).tmod (min w 4) = x + (px : Int) % min 4 (w - x) ∧
    0 ≤ x + (px : Int).tmod (min w 4) ∧ x + (px : Int).tmod (min w 4) < w ∧
    (4 ≤ w → x + (px : Int).tmod (min w 4) = x + (px : Int)) := by
  have hw : 0 < w := by omega
  rw [Int.tmod_eq_emod (by omega) (by omega)]
  by_cases h4 : 4 ≤ w
  · have hmul : w % 4 = 0 := by omega
    have e1 : min w 4 = 4 := by omega
    have e2 : min 4 (w - x) = 4 := by omega
    rw [e1, e2]
    refine ⟨rfl, by omega, by omega, fun _ => by omega⟩
  · have hj : x = 0 := by omega
    subst hj
    have e1 : min w 4 = w := by omega
    have e2 : min 4 (w - 0) = w := by omega
    rw [e1, e2]
    have hlt : (px : Int) % w < w := Int.emod_lt_of_pos _ hw
    have hnn : 0 ≤ (px : Int) % w := Int.emod_nonneg _ (by omega)
    refine ⟨rfl, by omega, by omega, fun h => absurd h h4⟩

/-- C18 as stated fails: on a 5 x 4 image the variant visits the tile at `x = 4` and reads, for
`px = 1`, column `4 + 1 % min(5, 4) = 5`, which is not below the width, where the wrap within
the extent `min(4, 5 - 4) = 1` of the tile gives column 4; with every source byte equal to its
offset, slot 1 of that tile holds the bytes at offsets 15, 16, 17 and not those of pixel
`(4, 0)` at offsets 12, 13, 14. -/
theorem wrap_within_extent_counterexample :
    (CompressImageRGBpow2_Flatten_Throttle_Abort (fun i => i.toNat) 5 4 0 false false
        (fun _ => false)).map (fun r => r.2.1.map (fun c => (c.x, c.sourceRgba.take 8)))
      = some [((0 : Int), [some 0, some 1, some 2, some 255, some 3, some 4, some 5, some 255]),
          (4, [some 12, some 13, some 14, some 255, some 15, some 16, some 17, some 255])] ∧
    FlattenThrottleAbort.sx 4 (min 5 4) 1 = 5 ∧
    (4 : Int) + 1 % min 4 (5 - 4) = 4 ∧
    ¬ (FlattenThrottleAbort.sx 4 (min 5 4) 1 < 5) := by
  refine ⟨rfl, by decide, by decide, by decide⟩

/-- The source coordinates of the variant for a tile that it visits, when the width and the
height are each at most 4 or a multiple of 4. -/
theorem FlattenThrottleAbort.visited_coords (rgb : Int → Nat) (width height flags bpb : Int)
    (masks : Nat × Nat × Nat) (m : Nat) (c : Dxt1Call)
    (hwg : width ≤ 4 ∨ width % 4 = 0) (hhg : height ≤ 4 ∨ height % 4 = 0)
    (hm : m ≤ stepsLeft height 0)
    (hc : c ∈ FlattenThrottleAbort.imageCalls rgb width flags bpb (min width 4) (min height 4)
      masks (stepsLeft width 0) m 0 0) (px py : Nat) (hpx : px < 4) (hpy : py < 4) :
    (FlattenThrottleAbort.sx c.x (min width 4) px
        = c.x + (px : Int) % min 4 (width - c.x) ∧
      0 ≤ FlattenThrottleAbort.sx c.x (min width 4) px ∧
      FlattenThrottleAbort.sx c.x (min width 4) px < width ∧
      (4 ≤ width → FlattenThrottleAbort.sx c.x (min width 4) px = c.x + (px : Int))) ∧
    (FlattenThrottleAbort.sy c.y (min height 4) py
        = c.y + (py : Int) % min 4 (height - c.y) ∧
      0 ≤ FlattenThrottleAbort.sy c.y (min height 4) py ∧
      FlattenThrottleAbort.sy c.y (min height 4) py < height ∧
      (4 ≤ height → FlattenThrottleAbort.sy c.y (min height 4) py = c.y + (py : Int))) ∧
    c.sourceRgba = FlattenThrottleAbort.buildTile rgb width c.x c.y (min width 4)
      (min height 4) masks := by
  obtain ⟨i, j, tb1, hi, hj, rfl⟩ :=
    FlattenThrottleAbort.dxt1_mem_imageCalls _ _ _ _ _ _ _ _ _ _ _ c hc
  have hx := stepsLeft_lt_iff width j hj
  have hy := stepsLeft_lt_iff height i (by omega)
  simp only [FlattenThrottleAbort.callAt, FlattenThrottleAbort.sx, FlattenThrottleAbort.sy]
  exact ⟨wrap_coord width (4 * (j : Int)) j px rfl hx hwg hpx,
    wrap_coord height (0 + 4 * (i : Int)) i py (by omega) (by omega) hhg hpy, trivial⟩

theorem FlattenThrottleAbort.rowsRun_le (b_abort : Nat → Bool) :
    ∀ (m p : Nat), FlattenThrottleAbort.rowsRun b_abort m p ≤ m := by
  intro m
  induction m with
  | zero => intro p; simp [FlattenThrottleAbort.rowsRun]
  | succ m ih =>
    intro p
    simp only [FlattenThrottleAbort.rowsRun]
    split_ifs
    · omega
    · have := ih (p + 1)
      omega

/-- C18, amended: when the width and the height are each at least 1 and each at most 4 or a
multiple of 4 (as every power of two is), the variant fills a tile by wrapping within the
tile's extent in the image: for every tile that it visits and `px, py` in `0..3`, slot
`4 * py + px` holds the masked bytes of the source pixel
`(x + px mod ew, y + py mod eh)`, with `ew = min(4, width - x)` and `eh = min(4, height - y)`,
and that pixel lies in the image. -/
theorem wrap_within_extent (rgb : Int → Nat) (width height flags : Int)
    (b_flatten throttle : Bool) (b_abort : Nat → Bool) (hw : 1 ≤ width) (hh : 1 ≤ height)
    (hwg : width ≤ 4 ∨ width % 4 = 0) (hhg : height ≤ 4 ∨ height % 4 = 0) :
    ∃ r : Int × List Dxt1Call × Nat,
      CompressImageRGBpow2_Flatten_Throttle_Abort rgb width height flags b_flatten throttle
        b_abort = some r ∧
      r.2.1 ≠ [] ∧
      ∀ c ∈ r.2.1, ∀ px py : Nat, px < 4 → py < 4 →
        FlattenThrottleAbort.sx c.x (min width 4) px
          = c.x + (px : Int) % min 4 (width - c.x) ∧
        FlattenThrottleAbort.sy c.y (min height 4) py
          = c.y + (py : Int) % min 4 (height - c.y) ∧
        0 ≤ FlattenThrottleAbort.sx c.x (min width 4) px ∧
        FlattenThrottleAbort.sx c.x (min width 4) px < width ∧
        0 ≤ FlattenThrottleAbort.sy c.y (min height 4) py ∧
        FlattenThrottleAbort.sy c.y (min height 4) py < height ∧
        c.sourceRgba[4 * (4 * py + px)]?
          = some (some (rgb (3 * (width * FlattenThrottleAbort.sy c.y (min height 4) py
              + FlattenThrottleAbort.sx c.x (min width 4) px) + 0)
            &&& (FlattenThrottleAbort.flatMasks b_flatten).1)) ∧
        c.sourceRgba[4 * (4 * py + px) + 1]?
          = some (some (rgb (3 * (width * FlattenThrottleAbort.sy c.y (min height 4) py
              + FlattenThrottleAbort.sx c.x (min width 4) px) + 1)
            &&& (FlattenThrottleAbort.flatMasks b_flatten).2.1)) ∧
        c.sourceRgba[4 * (4 * py + px) + 2]?
          = some (some (rgb (3 * (width * FlattenThrottleAbort.sy c.y (min height 4) py
              + FlattenThrottleAbort.sx c.x (min width 4) px) + 2)
            &&& (FlattenThrottleAbort.flatMasks b_flatten).2.2)) := by
  refine ⟨_, CompressImageRGBpow2_Flatten_Throttle_Abort_eq rgb width height flags b_flatten
    throttle b_abort, ?_, ?_⟩
  · have hlen := FlattenThrottleAbort.dxt1_imageCalls_length rgb width (FixFlags flags)
      (if (FixFlags flags &&& kDxt1) ≠ 0 then 8 else 16) (min width 4) (min height 4)
      (FlattenThrottleAbort.flatMasks b_flatten) (stepsLeft width 0)
      (FlattenThrottleAbort.rowsRun b_abort (stepsLeft height 0) 0) 0 0
    have h1 : 0 < stepsLeft width 0 := by
      unfold stepsLeft
      omega
    have h2 : 0 < FlattenThrottleAbort.rowsRun b_abort (stepsLeft height 0) 0 := by
      have h3 : 0 < stepsLeft height 0 := by
        unfold stepsLeft
        omega
      obtain ⟨n, hn⟩ : ∃ n, stepsLeft height 0 = n + 1 := ⟨stepsLeft height 0 - 1, by omega⟩
      rw [hn]
      simp only [FlattenThrottleAbort.rowsRun]
      split_ifs <;> omega
    intro hnil
    simp only [] at hnil
    rw [hnil] at hlen
    have hpos := Nat.mul_pos h2 h1
    simp at hlen
    omega
  · intro c hc px py hpx hpy
    obtain ⟨⟨hx1, hx2, hx3, _⟩, ⟨hy1, hy2, hy3, _⟩, htile⟩ :=
      FlattenThrottleAbort.visited_coords rgb width height _ _ _ _ c hwg hhg
        (FlattenThrottleAbort.rowsRun_le b_abort _ 0) hc px py hpx hpy
    obtain ⟨h0, h1, h2, _⟩ := FlattenThrottleAbort.buildTile_slot rgb width c.x c.y
      (min width 4) (min height 4) (FlattenThrottleAbort.flatMasks b_flatten) px py hpx hpy
    rw [← htile] at h0 h1 h2
    exact ⟨hx1, hy1, hx2, hx3, hy2, hy3, h0, h1, h2⟩

/-- Witness for C18 (amended): a 2 x 8 image, whose tiles are two columns wide. -/
theorem wrap_within_extent_witness :
    ((1 : Int) ≤ 2 ∧ (1 : Int) ≤ 8 ∧ ((2 : Int) ≤ 4 ∨ (2 : Int) % 4 = 0) ∧
      ((8 : Int) ≤ 4 ∨ (8 : Int) % 4 = 0)) ∧
    ∃ r : Int × List Dxt1Call × Nat,
      CompressImageRGBpow2_Flatten_Throttle_Abort (fun i => i.toNat % 256) 2 8 0 true false
        (fun _ => false) = some r ∧
      r.2.1 ≠ [] ∧
      ∀ c ∈ r.2.1, ∀ px py : Nat, px < 4 → py < 4 →
        FlattenThrottleAbort.sx c.x (min 2 4) px = c.x + (px : Int) % min 4 (2 - c.x) ∧
        FlattenThrottleAbort.sy c.y (min 8 4) py = c.y + (py : Int) % min 4 (8 - c.y) ∧
        0 ≤ FlattenThrottleAbort.sx c.x (min 2 4) px ∧
        FlattenThrottleAbort.sx c.x (min 2 4) px < 2 ∧
        0 ≤ FlattenThrottleAbort.sy c.y (min 8 4) py ∧
        FlattenThrottleAbort.sy c.y (min 8 4) py < 8 ∧
        c.sourceRgba[4 * (4 * py + px)]?
          = some (some ((fun i : Int => i.toNat % 256)
              (3 * (2 * FlattenThrottleAbort.sy c.y (min 8 4) py
                + FlattenThrottleAbort.sx c.x (min 2 4) px) + 0)
            &&& (FlattenThrottleAbort.flatMasks true).1)) ∧
        c.sourceRgba[4 * (4 * py + px) + 1]?
          = some (some ((fun i : Int => i.toNat % 256)
              (3 * (2 * FlattenThrottleAbort.sy c.y (min 8 4) py
                + FlattenThrottleAbort.sx c.x (min 2 4) px) + 1)
            &&& (FlattenThrottleAbort.flatMasks true).2.1)) ∧
        c.sourceRgba[4 * (4 * py + px) + 2]?
          = some (some ((fun i : Int => i.toNat % 256)
              (3 * (2 * FlattenThrottleAbort.sy c.y (min 8 4) py
                + FlattenThrottleAbort.sx c.x (min 2 4) px) + 2)
            &&& (FlattenThrottleAbort.flatMasks true).2.2)) :=
  ⟨by decide,
    wrap_within_extent (fun i => i.toNat % 256) 2 8 0 true false (fun _ => false) (by decide)
      (by decide) (by decide) (by decide)⟩

theorem wrap32_of_fits (n : Int) (h0 : 0 ≤ n) (h1 : n < 2 ^ 31) : wrap32 n = n := by
  unfold wrap32
  omega

/-- Without overflow the 32-bit result of `GetStorageRequirements` is the exact one. -/
theorem GetStorageRequirements32_of_fits (width height flags : Int) (hw : 0 ≤ width)
    (hh : 0 ≤ height) (hfit : storageFits32 width height flags) :
    GetStorageRequirements32 width height flags = GetStorageRequirements width height flags := by
  obtain ⟨hw3, hh3, hres⟩ := hfit
  have ha : (width + 3).tdiv 4 = (width + 3) / 4 := Int.tdiv_eq_ediv (by omega) (by decide)
  have hb : (height + 3).tdiv 4 = (height + 3) / 4 := Int.tdiv_eq_ediv (by omega) (by decide)
  have ha0 : 0 ≤ (width + 3) / 4 := by omega
  have hb0 : 0 ≤ (height + 3) / 4 := by omega
  have hab0 : 0 ≤ (width + 3) / 4 * ((height + 3) / 4) := mul_nonneg ha0 hb0
  have hbs : (1 : Int) ≤ (if (FixFlags flags &&& kDxt1) ≠ 0 then 8 else 16) := by
    split_ifs <;> decide
  have hres2 : (width + 3) / 4 * ((height + 3) / 4) *
      (if (FixFlags flags &&& kDxt1) ≠ 0 then 8 else 16) < 2 ^ 31 := by
    have h := hres
    simp only [GetStorageRequirements, ha, hb] at h
    exact h
  have hle : (width + 3) / 4 * ((height + 3) / 4)
      ≤ (width + 3) / 4 * ((height + 3) / 4) *
          (if (FixFlags flags &&& kDxt1) ≠ 0 then 8 else 16) :=
    le_mul_of_one_le_right hab0 hbs
  simp only [GetStorageRequirements32, GetStorageRequirements]
  rw [wrap32_of_fits (width + 3) (by omega) hw3, wrap32_of_fits (height + 3) (by omega) hh3,
    ha, hb, wrap32_of_fits _ hab0 (by omega),
    wrap32_of_fits _ (mul_nonneg hab0 (by omega)) hres2]

/-- The 32-bit results of `GetStorageRequirements` on two sizes whose exact results do not
fit: `2^31` wraps to `-2^31`, and `INT_MAX + 3` wraps before the division. -/
theorem GetStorageRequirements32_overflow :
    GetStorageRequirements32 1 536870911 kDxt5 = -2147483648 ∧
    GetStorageRequirements 1 536870911 kDxt5 = 2147483648 ∧
    GetStorageRequirements32 2147483647 1 0 = 8 ∧
    GetStorageRequirements 2147483647 1 0 = 4294967296 := by
  decide

theorem stepsLeft_big : stepsLeft 536870911 0 = 134217728 ∧ stepsLeft 1 0 = 1 := by
  decide

/-- The storage of a 5 x 5 image with flags 0 fits 32 bits, and is 32 bytes. -/
theorem storageFits32_five_by_five :
    storageFits32 5 5 0 ∧ GetStorageRequirements32 5 5 0 = 32 := by
  unfold storageFits32
  decide

/-- C9 as stated fails: on a 1 x 536870911 image with flags `kDxt5`, where no index that
`CompressImage` computes leaves the range of `int`, the blocks span `2^31` bytes, and the
32-bit result of `GetStorageRequirements` is `-2^31`. -/
theorem CompressImage_blocks_row_major_counterexample :
    ∃ r : Int × List TileCall, CompressImage (fun _ => 0) 1 536870911 kDxt5 = some r ∧
      r.1 = 2147483648 ∧
      GetStorageRequirements32 1 536870911 kDxt5 = -2147483648 ∧
      r.1 ≠ GetStorageRequirements32 1 536870911 kDxt5 ∧
      (4 * (1 * 536870910 + 0) + 3 : Int) < 2 ^ 31 := by
  refine ⟨_, CompressImage_eq (fun _ => 0) 1 536870911 kDxt5, ?_, by decide, ?_, by decide⟩
  · simp only []
    rw [stepsLeft_big.1, stepsLeft_big.2]
    decide
  · simp only []
    rw [stepsLeft_big.1, stepsLeft_big.2]
    decide

/-- C9, amended: `CompressImage` returns for every non-negative width and height; it makes
exactly `ceil(width/4) * ceil(height/4)` calls of `CompressMasked`, in row-major tile order;
the call for the tile with origin `(4*tx, 4*ty)` is the one numbered `ty * ceil(width/4) + tx`
and its block starts at that number times the block size (8 when the normalised method is
`kDxt1`, 16 otherwise), so that consecutive blocks are adjacent; the final value of
`targetBlock` is the number of calls times the block size; and when no operation of
`GetStorageRequirements` overflows 32 bits, that is the value
`GetStorageRequirements( width, height, flags )` returns. -/
theorem CompressImage_blocks_row_major (rgba : Int → Nat) (width height flags : Int)
    (hw : 0 ≤ width) (hh : 0 ≤ height) :
    ∃ r : Int × List TileCall,
      CompressImage rgba width height flags = some r ∧
      r.1 = ⌈(width : ℚ) / 4⌉ * ⌈(height : ℚ) / 4⌉ *
        (if methodBits (FixFlags flags) = kDxt1 then 8 else 16) ∧
      (r.2.length : Int) = ⌈(width : ℚ) / 4⌉ * ⌈(height : ℚ) / 4⌉ ∧
      (∀ tx ty : Nat, (tx : Int) < ⌈(width : ℚ) / 4⌉ → (ty : Int) < ⌈(height : ℚ) / 4⌉ →
        ∃ c : TileCall, r.2[ty * ⌈(width : ℚ) / 4⌉.toNat + tx]? = some c ∧
          c.x = 4 * tx ∧ c.y = 4 * ty ∧ c.flags = FixFlags flags ∧
          c.targetBlock = (ty * ⌈(width : ℚ) / 4⌉ + tx) *
            (if methodBits (FixFlags flags) = kDxt1 then 8 else 16)) ∧
      (storageFits32 width height flags →
        r.1 = GetStorageRequirements32 width height flags) := by
  have hcw := stepsLeft_zero_eq_ceil width hw
  have hch := stepsLeft_zero_eq_ceil height hh
  have hbs := (blocksize_eq flags).1
  refine ⟨_, CompressImage_eq rgba width height flags, ?_, ?_, ?_, ?_⟩
  · simp only []
    rw [← hcw, ← hch, ← hbs]
    ring
  · simp only []
    rw [CompressImage.imageCalls_length, ← hcw, ← hch]
    push_cast
    ring
  · intro tx ty htx hty
    rw [← hcw] at htx
    rw [← hch] at hty
    refine ⟨CompressImage.callAt rgba width height (FixFlags flags) (4 * tx) (0 + 4 * ty)
      (0 + ((ty * stepsLeft width 0 + tx : Nat) : Int) *
        (if (FixFlags flags &&& kDxt1) ≠ 0 then 8 else 16)), ?_, rfl, ?_, rfl, ?_⟩
    · rw [← hcw, Int.toNat_ofNat]
      exact CompressImage.imageCalls_get rgba width height (FixFlags flags) _ _ _ 0 0 ty tx
        (by exact_mod_cast hty) (by exact_mod_cast htx)
    · simp [CompressImage.callAt]
    · simp only [CompressImage.callAt]
      rw [← hcw, ← hbs]
      push_cast
      ring
  · intro hfit
    rw [GetStorageRequirements32_of_fits width height flags hw hh hfit,
      GetStorageRequirements_steps width height flags hw hh]

/-- Witness for C9 (amended): a 5 x 5 image, whose storage requirements fit 32 bits. -/
theorem CompressImage_blocks_row_major_witness :
    ((0 : Int) ≤ 5 ∧ (0 : Int) ≤ 5 ∧ storageFits32 5 5 0) ∧
    ∃ r : Int × List TileCall,
      CompressImage (fun i => i.toNat % 256) 5 5 0 = some r ∧
      r.1 = ⌈((5 : Int) : ℚ) / 4⌉ * ⌈((5 : Int) : ℚ) / 4⌉ *
        (if methodBits (FixFlags 0) = kDxt1 then 8 else 16) ∧
      (r.2.length : Int) = ⌈((5 : Int) : ℚ) / 4⌉ * ⌈((5 : Int) : ℚ) / 4⌉ ∧
      (∀ tx ty : Nat, (tx : Int) < ⌈((5 : Int) : ℚ) / 4⌉ → (ty : Int) < ⌈((5 : Int) : ℚ) / 4⌉ →
        ∃ c : TileCall, r.2[ty * ⌈((5 : Int) : ℚ) / 4⌉.toNat + tx]? = some c ∧
          c.x = 4 * tx ∧ c.y = 4 * ty ∧ c.flags = FixFlags 0 ∧
          c.targetBlock = (ty * ⌈((5 : Int) : ℚ) / 4⌉ + tx) *
            (if methodBits (FixFlags 0) = kDxt1 then 8 else 16)) ∧
      r.1 = GetStorageRequirements32 5 5 0 := by
  refine ⟨⟨by decide, by decide, storageFits32_five_by_five.1⟩, ?_⟩
  obtain ⟨r, h1, h2, h3, h4, h5⟩ :=
    CompressImage_blocks_row_major (fun i => i.toNat % 256) 5 5 0 (by decide) (by decide)
  exact ⟨r, h1, h2, h3, h4, h5 storageFits32_five_by_five.1⟩

end squish
